import Mathlib

/-!
Verification of the SimpleDBPy storage/transaction/query core against its
natural-language specification.  The Python source is shallowly embedded:
pages are byte lists (each byte a `Nat` below 256), stateful managers become
explicit state-passing functions, Python exceptions become `Except`/`Option`
results, and `threading.Lock` is modelled by an explicit held-flag where a
second acquire by the same thread blocks forever (non-reentrant lock).
-/

/-- Byte strings are lists of natural numbers (each below 256 where produced
by the encoders).  Mirrors Python `bytes`/`bytearray`. -/
abbrev Bytes := List Nat

/-- Slice read `buffer[o : o+k]` of a Python bytearray: out-of-range parts are
simply absent, exactly like Python slicing. -/
def Page.readRange (p : Bytes) (o k : Nat) : Bytes :=
  (p.drop o).take k

/-- Slice assignment `buffer[o : o+len(ws)] = ws`.  For `o + ws.length ≤
p.length` this replaces the bytes at `[o, o+ws.length)` and keeps the length,
which is the only regime the source ever uses. -/
def Page.setRange (p : Bytes) (o : Nat) (ws : Bytes) : Bytes :=
  p.take o ++ ws ++ p.drop (o + ws.length)

/-- Little-endian unsigned 32-bit decode, `struct.unpack("<I", ...)` from
`rdbpy/file.py`.  Any argument that is not exactly 4 bytes would raise
`struct.error` in Python; our theorems only reach the 4-byte case. -/
def decodeU32 : Bytes → Nat
  | [b0, b1, b2, b3] => b0 + 256 * b1 + 65536 * b2 + 16777216 * b3
  | _ => 0

/-- Little-endian unsigned 32-bit encode, `struct.pack("<I", n)`;
requires `n < 2^32` in Python. -/
def encodeU32 (n : Nat) : Bytes :=
  [n % 256, n / 256 % 256, n / 65536 % 256, n / 16777216 % 256]

/-- Little-endian signed 32-bit encode, `struct.pack("<i", n)`; requires
`-2^31 ≤ n < 2^31` in Python.  Two's complement: the unsigned image is
`n mod 2^32`. -/
def encodeI32 (n : Int) : Bytes :=
  encodeU32 ((n % 4294967296).toNat)

/-- Little-endian signed 32-bit decode, `struct.unpack("<i", ...)`. -/
def decodeI32 (bs : Bytes) : Int :=
  let u := decodeU32 bs
  if u < 2147483648 then (u : Int) else (u : Int) - 4294967296

theorem decodeU32_encodeU32 (n : Nat) (h : n < 4294967296) :
    decodeU32 (encodeU32 n) = n := by
  simp only [decodeU32, encodeU32]
  omega

theorem decodeI32_encodeI32 (n : Int) (h1 : -2147483648 ≤ n)
    (h2 : n < 2147483648) : decodeI32 (encodeI32 n) = n := by
  simp only [decodeI32, encodeI32]
  rw [decodeU32_encodeU32 _ (by omega)]
  omega

/-- `Page.get_int` from `rdbpy/file.py`: unpack 4 little-endian bytes at
`offset` as a signed int. -/
def Page.get_int (p : Bytes) (offset : Nat) : Int :=
  decodeI32 (Page.readRange p offset 4)

/-- `Page.set_int` from `rdbpy/file.py`. -/
def Page.set_int (p : Bytes) (offset : Nat) (n : Int) : Bytes :=
  Page.setRange p offset (encodeI32 n)

/-- `Page.get_bytes`: read the 4-byte unsigned length prefix, then that many
raw bytes. -/
def Page.get_bytes (p : Bytes) (offset : Nat) : Bytes :=
  Page.readRange p (offset + 4) (decodeU32 (Page.readRange p offset 4))

/-- `Page.set_bytes`: write the length prefix, then the payload (two slice
assignments, as in the source). -/
def Page.set_bytes (p : Bytes) (offset : Nat) (b : Bytes) : Bytes :=
  Page.setRange (Page.setRange p offset (encodeU32 b.length)) (offset + 4) b

/-- `Page.max_length` from `rdbpy/file.py`: worst-case encoded size of a
string of `strlen` code points. -/
def Page.max_length (strlen : Nat) : Nat :=
  4 + strlen * 4

theorem length_setRange (p ws : Bytes) (o : Nat) (h : o + ws.length ≤ p.length) :
    (Page.setRange p o ws).length = p.length := by
  simp only [Page.setRange, List.length_append, List.length_take, List.length_drop]
  omega

theorem getElem?_setRange_lt (p ws : Bytes) (o i : Nat) (hi : i < o)
    (hp : o ≤ p.length) : (Page.setRange p o ws)[i]? = p[i]? := by
  simp only [Page.setRange, List.append_assoc]
  rw [List.getElem?_append_left (by simp [List.length_take]; omega)]
  rw [List.getElem?_take_of_lt hi]

theorem getElem?_setRange_mid (p ws : Bytes) (o i : Nat) (h1 : o ≤ i)
    (h2 : i < o + ws.length) (hp : o ≤ p.length) :
    (Page.setRange p o ws)[i]? = ws[i - o]? := by
  simp only [Page.setRange, List.append_assoc]
  rw [List.getElem?_append_right (by simp [List.length_take]; omega)]
  rw [List.getElem?_append_left (by simp [List.length_take]; omega)]
  congr 1
  simp [List.length_take]
  omega

theorem getElem?_setRange_ge (p ws : Bytes) (o i : Nat) (hi : o + ws.length ≤ i)
    (hp : o + ws.length ≤ p.length) : (Page.setRange p o ws)[i]? = p[i]? := by
  simp only [Page.setRange, List.append_assoc]
  rw [List.getElem?_append_right (by simp [List.length_take]; omega)]
  rw [List.getElem?_append_right (by simp [List.length_take]; omega)]
  rw [List.getElem?_drop]
  congr 1
  simp [List.length_take]
  omega

theorem getElem?_readRange (p : Bytes) (o k i : Nat) :
    (Page.readRange p o k)[i]? = if i < k then p[o + i]? else none := by
  simp only [Page.readRange]
  by_cases h : i < k
  · rw [List.getElem?_take_of_lt h, List.getElem?_drop]
    simp [h]
  · simp [h, List.getElem?_take]

theorem readRange_congr (p q : Bytes) (o k : Nat)
    (h : ∀ i, i < k → p[o + i]? = q[o + i]?) :
    Page.readRange p o k = Page.readRange q o k := by
  apply List.ext_getElem?
  intro i
  rw [getElem?_readRange, getElem?_readRange]
  by_cases hik : i < k
  · simp [hik, h i hik]
  · simp [hik]

theorem readRange_setRange_self (p ws : Bytes) (o : Nat)
    (h : o + ws.length ≤ p.length) :
    Page.readRange (Page.setRange p o ws) o ws.length = ws := by
  apply List.ext_getElem?
  intro i
  rw [getElem?_readRange]
  by_cases hik : i < ws.length
  · rw [if_pos hik, getElem?_setRange_mid p ws o (o + i) (by omega) (by omega) (by omega)]
    congr 1
    omega
  · rw [if_neg hik]
    exact (List.getElem?_eq_none (by omega)).symm

theorem readRange_setRange_before (p ws : Bytes) (o o2 k : Nat)
    (hdisj : o + k ≤ o2) (hp : o2 ≤ p.length) :
    Page.readRange (Page.setRange p o2 ws) o k = Page.readRange p o k := by
  apply readRange_congr
  intro i hik
  exact getElem?_setRange_lt p ws o2 (o + i) (by omega) hp

theorem readRange_setRange_after (p ws : Bytes) (o o2 k : Nat)
    (hdisj : o2 + ws.length ≤ o) (hp : o2 + ws.length ≤ p.length) :
    Page.readRange (Page.setRange p o2 ws) o k = Page.readRange p o k := by
  apply readRange_congr
  intro i hik
  exact getElem?_setRange_ge p ws o2 (o + i) (by omega) hp

/-- Unicode scalar values: what a Python `str` that `encode()` accepts may
contain (surrogates are rejected by UTF-8 encoding).  Strings are modelled as
lists of code points. -/
def ScalarValue (c : Nat) : Prop :=
  c < 55296 ∨ (57344 ≤ c ∧ c < 1114112)

instance (c : Nat) : Decidable (ScalarValue c) := by
  unfold ScalarValue; infer_instance

/-- UTF-8 encoding of one code point (`str.encode()` per character). -/
def utf8EncodeChar (c : Nat) : List Nat :=
  if c < 128 then [c]
  else if c < 2048 then [192 + c / 64, 128 + c % 64]
  else if c < 65536 then [224 + c / 4096, 128 + c / 64 % 64, 128 + c % 64]
  else [240 + c / 262144, 128 + c / 4096 % 64, 128 + c / 64 % 64, 128 + c % 64]

/-- UTF-8 encoding of a string (list of code points), `str.encode()`. -/
def utf8Encode : List Nat → List Nat
  | [] => []
  | c :: cs => utf8EncodeChar c ++ utf8Encode cs

/-- Strict UTF-8 decoding, `bytes.decode()`, written with explicit fuel to
make the recursion structural: every step consumes at least one byte and one
unit of fuel, and an empty input succeeds with any fuel, so fuel equal to the
input length (as used by `utf8Decode` below) never runs out.  Rejects stray
continuation bytes, overlong forms, surrogates and out-of-range code points,
returning `none` where Python raises `UnicodeDecodeError`. -/
def utf8DecodeF : Nat → List Nat → Option (List Nat)
  | _, [] => some []
  | 0, _ :: _ => none
  | f + 1, b :: rest =>
    if b < 128 then (utf8DecodeF f rest).map (fun cs => b :: cs)
    else if b < 192 then none
    else if b < 224 then
      match rest with
      | b1 :: rest1 =>
        if 128 ≤ b1 ∧ b1 < 192 then
          if (b - 192) * 64 + (b1 - 128) < 128 then none
          else (utf8DecodeF f rest1).map (fun cs => ((b - 192) * 64 + (b1 - 128)) :: cs)
        else none
      | [] => none
    else if b < 240 then
      match rest with
      | b1 :: b2 :: rest2 =>
        if 128 ≤ b1 ∧ b1 < 192 ∧ 128 ≤ b2 ∧ b2 < 192 then
          if (b - 224) * 4096 + (b1 - 128) * 64 + (b2 - 128) < 2048 ∨
              (55296 ≤ (b - 224) * 4096 + (b1 - 128) * 64 + (b2 - 128) ∧
                (b - 224) * 4096 + (b1 - 128) * 64 + (b2 - 128) < 57344) then none
          else (utf8DecodeF f rest2).map
            (fun cs => ((b - 224) * 4096 + (b1 - 128) * 64 + (b2 - 128)) :: cs)
        else none
      | _ => none
    else if b < 248 then
      match rest with
      | b1 :: b2 :: b3 :: rest3 =>
        if 128 ≤ b1 ∧ b1 < 192 ∧ 128 ≤ b2 ∧ b2 < 192 ∧ 128 ≤ b3 ∧ b3 < 192 then
          if (b - 240) * 262144 + (b1 - 128) * 4096 + (b2 - 128) * 64 + (b3 - 128) < 65536 ∨
              1114112 ≤ (b - 240) * 262144 + (b1 - 128) * 4096 + (b2 - 128) * 64 + (b3 - 128)
          then none
          else (utf8DecodeF f rest3).map
            (fun cs =>
              ((b - 240) * 262144 + (b1 - 128) * 4096 + (b2 - 128) * 64 + (b3 - 128)) :: cs)
        else none
      | _ => none
    else none

/-- UTF-8 decoding of a byte list; fuel `l.length` always suffices. -/
def utf8Decode (l : List Nat) : Option (List Nat) :=
  utf8DecodeF l.length l

theorem utf8DecodeF_encodeChar (c f : Nat) (t : List Nat) (h : ScalarValue c) :
    utf8DecodeF (f + 1) (utf8EncodeChar c ++ t) =
      (utf8DecodeF f t).map (fun cs => c :: cs) := by
  unfold ScalarValue at h
  rcases Nat.lt_or_ge c 128 with h1 | h1
  · simp only [utf8EncodeChar, if_pos h1, List.cons_append, List.nil_append]
    rcases t with _ | ⟨b1, t1⟩
    · simp [utf8DecodeF, h1]
    · rw [utf8DecodeF]
      rw [if_pos h1]
  · rcases Nat.lt_or_ge c 2048 with h2 | h2
    · simp only [utf8EncodeChar, if_neg (by omega : ¬ c < 128), if_pos h2,
        List.cons_append, List.nil_append]
      rw [utf8DecodeF]
      rw [if_neg (by omega : ¬ 192 + c / 64 < 128),
        if_neg (by omega : ¬ 192 + c / 64 < 192),
        if_pos (by omega : 192 + c / 64 < 224)]
      rw [if_pos (by omega : 128 ≤ 128 + c % 64 ∧ 128 + c % 64 < 192)]
      rw [if_neg (by omega : ¬ (192 + c / 64 - 192) * 64 + (128 + c % 64 - 128) < 128)]
      have hc : (192 + c / 64 - 192) * 64 + (128 + c % 64 - 128) = c := by omega
      rw [hc]
    · rcases Nat.lt_or_ge c 65536 with h3 | h3
      · simp only [utf8EncodeChar, if_neg (by omega : ¬ c < 128),
          if_neg (by omega : ¬ c < 2048), if_pos h3, List.cons_append, List.nil_append]
        rw [utf8DecodeF]
        rw [if_neg (by omega : ¬ 224 + c / 4096 < 128),
          if_neg (by omega : ¬ 224 + c / 4096 < 192),
          if_neg (by omega : ¬ 224 + c / 4096 < 224),
          if_pos (by omega : 224 + c / 4096 < 240)]
        simp only
        rw [if_pos (by omega : 128 ≤ 128 + c / 64 % 64 ∧ 128 + c / 64 % 64 < 192 ∧
          128 ≤ 128 + c % 64 ∧ 128 + c % 64 < 192)]
        rw [if_neg (by omega : ¬ ((224 + c / 4096 - 224) * 4096 + (128 + c / 64 % 64 - 128) * 64 +
          (128 + c % 64 - 128) < 2048 ∨
          (55296 ≤ (224 + c / 4096 - 224) * 4096 + (128 + c / 64 % 64 - 128) * 64 +
            (128 + c % 64 - 128) ∧
          (224 + c / 4096 - 224) * 4096 + (128 + c / 64 % 64 - 128) * 64 +
            (128 + c % 64 - 128) < 57344)))]
        have hc : (224 + c / 4096 - 224) * 4096 + (128 + c / 64 % 64 - 128) * 64 +
            (128 + c % 64 - 128) = c := by omega
        rw [hc]
      · simp only [utf8EncodeChar, if_neg (by omega : ¬ c < 128),
          if_neg (by omega : ¬ c < 2048), if_neg (by omega : ¬ c < 65536),
          List.cons_append, List.nil_append]
        rw [utf8DecodeF]
        rw [if_neg (by omega : ¬ 240 + c / 262144 < 128),
          if_neg (by omega : ¬ 240 + c / 262144 < 192),
          if_neg (by omega : ¬ 240 + c / 262144 < 224),
          if_neg (by omega : ¬ 240 + c / 262144 < 240),
          if_pos (by omega : 240 + c / 262144 < 248)]
        simp only
        rw [if_pos (by omega : 128 ≤ 128 + c / 4096 % 64 ∧ 128 + c / 4096 % 64 < 192 ∧
          128 ≤ 128 + c / 64 % 64 ∧ 128 + c / 64 % 64 < 192 ∧
          128 ≤ 128 + c % 64 ∧ 128 + c % 64 < 192)]
        rw [if_neg (by omega : ¬ ((240 + c / 262144 - 240) * 262144 +
          (128 + c / 4096 % 64 - 128) * 4096 + (128 + c / 64 % 64 - 128) * 64 +
          (128 + c % 64 - 128) < 65536 ∨
          1114112 ≤ (240 + c / 262144 - 240) * 262144 + (128 + c / 4096 % 64 - 128) * 4096 +
          (128 + c / 64 % 64 - 128) * 64 + (128 + c % 64 - 128)))]
        have hc : (240 + c / 262144 - 240) * 262144 + (128 + c / 4096 % 64 - 128) * 4096 +
            (128 + c / 64 % 64 - 128) * 64 + (128 + c % 64 - 128) = c := by omega
        rw [hc]

theorem length_utf8EncodeChar_pos (c : Nat) : 1 ≤ (utf8EncodeChar c).length := by
  unfold utf8EncodeChar
  split
  · simp
  · split
    · simp
    · split <;> simp

theorem utf8DecodeF_utf8Encode (s : List Nat) (f : Nat)
    (h : ∀ c ∈ s, ScalarValue c) (hf : (utf8Encode s).length ≤ f) :
    utf8DecodeF f (utf8Encode s) = some s := by
  induction s generalizing f with
  | nil =>
    cases f <;> rfl
  | cons c cs ih =>
    rw [utf8Encode] at hf ⊢
    have h1 : 1 ≤ (utf8EncodeChar c).length := length_utf8EncodeChar_pos c
    rw [List.length_append] at hf
    cases f with
    | zero => omega
    | succ g =>
      rw [utf8DecodeF_encodeChar c g _ (h c (by simp))]
      rw [ih g (fun x hx => h x (by simp [hx])) (by omega)]
      rfl

theorem utf8Decode_utf8Encode (s : List Nat) (h : ∀ c ∈ s, ScalarValue c) :
    utf8Decode (utf8Encode s) = some s :=
  utf8DecodeF_utf8Encode s (utf8Encode s).length h (Nat.le_refl _)

/-- `Page.set_string` from `rdbpy/file.py`: UTF-8 encode, then `set_bytes`. -/
def Page.set_string (p : Bytes) (offset : Nat) (s : List Nat) : Bytes :=
  Page.set_bytes p offset (utf8Encode s)

/-- `Page.get_string` from `rdbpy/file.py`: `get_bytes`, then UTF-8 decode
(`none` models a `UnicodeDecodeError`). -/
def Page.get_string (p : Bytes) (offset : Nat) : Option (List Nat) :=
  utf8Decode (Page.get_bytes p offset)

theorem length_encodeU32 (n : Nat) : (encodeU32 n).length = 4 := rfl

theorem length_encodeI32 (n : Int) : (encodeI32 n).length = 4 := rfl

theorem get_int_set_int (p : Bytes) (o : Nat) (n : Int)
    (h1 : -2147483648 ≤ n) (h2 : n < 2147483648) (hb : o + 4 ≤ p.length) :
    Page.get_int (Page.set_int p o n) o = n := by
  unfold Page.get_int Page.set_int
  have h4 : (encodeI32 n).length = 4 := length_encodeI32 n
  have := readRange_setRange_self p (encodeI32 n) o (by omega)
  rw [h4] at this
  rw [this]
  exact decodeI32_encodeI32 n h1 h2

theorem get_bytes_set_bytes (p b : Bytes) (o : Nat)
    (hlen : b.length < 4294967296) (hb : o + 4 + b.length ≤ p.length) :
    Page.get_bytes (Page.set_bytes p o b) o = b := by
  unfold Page.get_bytes Page.set_bytes
  have hp1 : (Page.setRange p o (encodeU32 b.length)).length = p.length := by
    apply length_setRange
    rw [length_encodeU32]
    omega
  rw [readRange_setRange_before _ b o (o + 4) 4 (by omega) (by omega)]
  have hpre := readRange_setRange_self p (encodeU32 b.length) o
    (by rw [length_encodeU32]; omega)
  rw [length_encodeU32] at hpre
  rw [hpre, decodeU32_encodeU32 _ hlen]
  exact readRange_setRange_self (Page.setRange p o (encodeU32 b.length)) b (o + 4)
    (by omega)

theorem get_string_set_string (p : Bytes) (o : Nat) (s : List Nat)
    (hs : ∀ c ∈ s, ScalarValue c) (hlen : (utf8Encode s).length < 4294967296)
    (hb : o + 4 + (utf8Encode s).length ≤ p.length) :
    Page.get_string (Page.set_string p o s) o = some s := by
  unfold Page.get_string Page.set_string
  rw [get_bytes_set_bytes p (utf8Encode s) o hlen hb]
  exact utf8Decode_utf8Encode s hs

/-- C8.  Page round-trip: for every Page, offset `o` and value of matching
type, `set_*(o,v)` followed by `get_*(o)` returns `v`, provided
`o + encoded_len(v) ≤ block_size`, where `encoded_len` is 4 for a 32-bit
signed integer and 4 plus the encoded byte length for bytes and UTF-8
strings (`rdbpy/file.py`, class `Page`). -/
theorem C8_page_roundtrip (p : Bytes) (o : Nat) :
    (∀ n : Int, -2147483648 ≤ n → n < 2147483648 → o + 4 ≤ p.length →
      Page.get_int (Page.set_int p o n) o = n)
    ∧ (∀ b : Bytes, b.length < 4294967296 → o + 4 + b.length ≤ p.length →
      Page.get_bytes (Page.set_bytes p o b) o = b)
    ∧ (∀ s : List Nat, (∀ c ∈ s, ScalarValue c) →
      (utf8Encode s).length < 4294967296 →
      o + 4 + (utf8Encode s).length ≤ p.length →
      Page.get_string (Page.set_string p o s) o = some s) :=
  ⟨fun n h1 h2 hb => get_int_set_int p o n h1 h2 hb,
   fun b hlen hb => get_bytes_set_bytes p b o hlen hb,
   fun s hs hlen hb => get_string_set_string p o s hs hlen hb⟩

/-- Witness for C8 on a concrete 32-byte page: an integer, a byte string and
a two-code-point string (one of them multi-byte) each round-trip. -/
theorem C8_page_roundtrip_witness :
    Page.get_int (Page.set_int (List.replicate 32 0) 3 (-123456)) 3 = -123456
    ∧ Page.get_bytes (Page.set_bytes (List.replicate 32 0) 5 [7, 8, 254]) 5 = [7, 8, 254]
    ∧ Page.get_string (Page.set_string (List.replicate 32 0) 9 [104, 12354]) 9 =
        some [104, 12354] :=
  ⟨(C8_page_roundtrip (List.replicate 32 0) 3).1 (-123456) (by decide) (by decide)
      (by decide),
   (C8_page_roundtrip (List.replicate 32 0) 5).2.1 [7, 8, 254] (by decide) (by decide),
   (C8_page_roundtrip (List.replicate 32 0) 9).2.2 [104, 12354] (by decide) (by decide)
      (by decide)⟩

/-- Value type of `BlockId` from `rdbpy/file.py`: a (filename, block number)
pair with structural equality. -/
structure BlockId where
  filename : String
  blknum : Int
deriving DecidableEq, Repr

/-- State of `LogMgr` (`simpledbpy/log.py`) together with the blocks of its
log file on disk (`FileMgr` restricted to the one log file). -/
structure LogMgrState where
  blockSize : Nat
  disk : List Bytes
  logpage : Bytes
  currentblk : Nat
  latestLsn : Nat
  lastSavedLsn : Nat
deriving DecidableEq, Repr

/-- `LogMgr._append_new_block`: `fm.append` writes a zero block at the end of
the file, then the boundary of the in-memory log page is set to `block_size`
and the page (with its stale record bytes) is written to the new block.  The
caller assigns the returned block to `_currentblk`. -/
def LogMgr.appendNewBlock (st : LogMgrState) : LogMgrState :=
  let blk := st.disk.length
  let disk1 := st.disk ++ [List.replicate st.blockSize 0]
  let page1 := Page.set_int st.logpage 0 (st.blockSize : Int)
  { st with disk := disk1.set blk page1, logpage := page1, currentblk := blk }

/-- `LogMgr.__init__` for an empty log file (`fm.length(logfile) == 0`): a
fresh zero page, then `_append_new_block`; both LSN counters start at 0. -/
def LogMgr.init (bs : Nat) : LogMgrState :=
  LogMgr.appendNewBlock
    { blockSize := bs, disk := [], logpage := List.replicate bs 0,
      currentblk := 0, latestLsn := 0, lastSavedLsn := 0 }

/-- `LogMgr._flush`: write the current log page to its block and record that
everything appended so far is saved. -/
def LogMgr.flushInternal (st : LogMgrState) : LogMgrState :=
  { st with
    disk := st.disk.set st.currentblk st.logpage,
    lastSavedLsn := st.latestLsn }

/-- `LogMgr.flush(lsn)` from `simpledbpy/log.py` line 29: the source guard is
`lsn >= self._last_saved_lsn`. -/
def LogMgr.flush (st : LogMgrState) (lsn : Int) : LogMgrState :=
  if lsn ≥ (st.lastSavedLsn : Int) then LogMgr.flushInternal st else st

/-- `LogMgr.append(logrec)`: records are packed right-to-left below the
boundary stored in bytes [0..4) of the page; when the record does not fit the
page is flushed and a fresh block begun.  Returns the new state and the LSN. -/
def LogMgr.append (st : LogMgrState) (logrec : Bytes) : LogMgrState × Nat :=
  let boundary := Page.get_int st.logpage 0
  let bytesneeded : Int := (logrec.length : Int) + 4
  let stb :=
    if boundary - bytesneeded < 4 then
      let sta := LogMgr.appendNewBlock (LogMgr.flushInternal st)
      (sta, Page.get_int sta.logpage 0)
    else (st, boundary)
  let st1 := stb.1
  let recpos := stb.2 - bytesneeded
  let page1 := Page.set_bytes st1.logpage recpos.toNat logrec
  let page2 := Page.set_int page1 0 recpos
  ({ st1 with logpage := page2, latestLsn := st1.latestLsn + 1 }, st1.latestLsn + 1)

/-- Cursor state of `LogIterator` (`simpledbpy/log.py`). -/
structure LogIterState where
  blockSize : Nat
  disk : List Bytes
  blknum : Nat
  page : Bytes
  currentpos : Nat
deriving DecidableEq, Repr

/-- `LogIterator.__next__`: yields the record at the current position and
advances; at the page end moves to the previous block; stops once block 0 is
exhausted. -/
def LogIterator.next (it : LogIterState) : Option (Bytes × LogIterState) :=
  if it.currentpos < it.blockSize ∨ it.blknum > 0 then
    let it1 :=
      if it.currentpos = it.blockSize then
        let blk2 := it.blknum - 1
        let page2 := it.disk.getD blk2 []
        { it with
          blknum := blk2,
          page := page2,
          currentpos := (Page.get_int page2 0).toNat }
      else it
    let r := Page.get_bytes it1.page it1.currentpos
    some (r, { it1 with currentpos := it1.currentpos + r.length + 4 })
  else none

/-- `LogMgr.__iter__`: first `_flush`, then a `LogIterator` positioned on the
current block at its boundary. -/
def LogMgr.iterInit (st : LogMgrState) : LogIterState :=
  let stf := LogMgr.flushInternal st
  let page := stf.disk.getD stf.currentblk []
  { blockSize := stf.blockSize, disk := stf.disk, blknum := stf.currentblk,
    page := page, currentpos := (Page.get_int page 0).toNat }

/-- Drains the iterator into a list (fuel-bounded; any fuel at least the
record count is enough). -/
def LogIterator.drain : Nat → LogIterState → List Bytes
  | 0, _ => []
  | f + 1, it =>
    match LogIterator.next it with
    | none => []
    | some (r, it2) => r :: LogIterator.drain f it2

/-- Iterating the log: flush, then drain. -/
def LogMgr.iterate (st : LogMgrState) (fuel : Nat) : List Bytes :=
  LogIterator.drain fuel (LogMgr.iterInit st)

/-- Decimal digits (as ASCII code points) of a natural number. -/
def decimalDigitsAux : Nat → Nat → List Nat
  | 0, _ => []
  | f + 1, n => if n < 10 then [48 + n] else decimalDigitsAux f (n / 10) ++ [48 + n % 10]

/-- ASCII decimal rendering of `n`, e.g. `decimalDigits 42 = [52, 50]`. -/
def decimalDigits (n : Nat) : List Nat :=
  decimalDigitsAux (n + 1) n

/-- Code points of the string `recordN` used by scenario S2 / `test_log.py`. -/
def recordName (n : Nat) : List Nat :=
  [114, 101, 99, 111, 114, 100] ++ decimalDigits n

/-- `_create_log_record(s, n)` from `test_log.py`: a page of
`max_length(len(s)) + 4` bytes holding the string at 0 and the int at
`max_length(len(s))`. -/
def createLogRecord (s : List Nat) (n : Int) : Bytes :=
  let npos := Page.max_length s.length
  Page.set_int (Page.set_string (List.replicate (npos + 4) 0) 0 s) npos n

/-- Scenario S2 input: the 70 records `("record1", 101) … ("record70", 170)`. -/
def s2Records : List (List Nat × Int) :=
  (List.range 70).map (fun i => (recordName (i + 1), (i : Int) + 101))

/-- Scenario S2: append all 70 records to a fresh log with block size 400. -/
def s2Final : LogMgrState :=
  s2Records.foldl (fun st r => (LogMgr.append st (createLogRecord r.1 r.2)).1)
    (LogMgr.init 400)

/-- Reading one yielded log record back as the test does: the string at
offset 0 and the int at `max_length(len(s))`. -/
def decodeLogRec (b : Bytes) : Option (List Nat × Int) :=
  match Page.get_string b 0 with
  | some s => some (s, Page.get_int b (Page.max_length s.length))
  | none => none

/-- First 35 records of scenario S2. -/
def s2RecordsA : List (List Nat × Int) :=
  (List.range 35).map (fun i => (recordName (i + 1), (i : Int) + 101))

/-- Last 35 records of scenario S2. -/
def s2RecordsB : List (List Nat × Int) :=
  (List.range 35).map (fun i => (recordName (i + 36), (i : Int) + 136))

theorem s2Records_split : s2Records = s2RecordsA ++ s2RecordsB := by decide

/-- Log-manager state after appending the first 35 records of scenario S2. -/
def s2Stage : LogMgrState :=
  s2RecordsA.foldl (fun st r => (LogMgr.append st (createLogRecord r.1 r.2)).1)
    (LogMgr.init 400)

/-- Explicit value of the log-manager state after the first 35 appends of
scenario S2, used to stage the 70-append computation (proved equal to
`s2Stage` below). -/
def s2StageLit : LogMgrState :=
  { blockSize := 400,
    disk := [[40, 0, 0, 0, 0, 0, 0, 0, 0, 0, 0, 0, 0, 0, 0, 0, 0, 0, 0, 0, 0, 0, 0, 0, 0, 0, 0, 0, 0, 0, 0, 0, 0, 0, 0, 0,
              0, 0, 0, 0, 36, 0, 0, 0, 7, 0, 0, 0, 114, 101, 99, 111, 114, 100, 57, 0, 0, 0, 0, 0, 0, 0, 0, 0, 0, 0, 0, 0,
              0, 0, 0, 0, 0, 0, 0, 0, 109, 0, 0, 0, 36, 0, 0, 0, 7, 0, 0, 0, 114, 101, 99, 111, 114, 100, 56, 0, 0, 0, 0,
              0, 0, 0, 0, 0, 0, 0, 0, 0, 0, 0, 0, 0, 0, 0, 0, 0, 108, 0, 0, 0, 36, 0, 0, 0, 7, 0, 0, 0, 114, 101, 99, 111,
              114, 100, 55, 0, 0, 0, 0, 0, 0, 0, 0, 0, 0, 0, 0, 0, 0, 0, 0, 0, 0, 0, 0, 0, 107, 0, 0, 0, 36, 0, 0, 0, 7,
              0, 0, 0, 114, 101, 99, 111, 114, 100, 54, 0, 0, 0, 0, 0, 0, 0, 0, 0, 0, 0, 0, 0, 0, 0, 0, 0, 0, 0, 0, 0,
              106, 0, 0, 0, 36, 0, 0, 0, 7, 0, 0, 0, 114, 101, 99, 111, 114, 100, 53, 0, 0, 0, 0, 0, 0, 0, 0, 0, 0, 0, 0,
              0, 0, 0, 0, 0, 0, 0, 0, 0, 105, 0, 0, 0, 36, 0, 0, 0, 7, 0, 0, 0, 114, 101, 99, 111, 114, 100, 52, 0, 0, 0,
              0, 0, 0, 0, 0, 0, 0, 0, 0, 0, 0, 0, 0, 0, 0, 0, 0, 0, 104, 0, 0, 0, 36, 0, 0, 0, 7, 0, 0, 0, 114, 101, 99,
              111, 114, 100, 51, 0, 0, 0, 0, 0, 0, 0, 0, 0, 0, 0, 0, 0, 0, 0, 0, 0, 0, 0, 0, 0, 103, 0, 0, 0, 36, 0, 0, 0,
              7, 0, 0, 0, 114, 101, 99, 111, 114, 100, 50, 0, 0, 0, 0, 0, 0, 0, 0, 0, 0, 0, 0, 0, 0, 0, 0, 0, 0, 0, 0, 0,
              102, 0, 0, 0, 36, 0, 0, 0, 7, 0, 0, 0, 114, 101, 99, 111, 114, 100, 49, 0, 0, 0, 0, 0, 0, 0, 0, 0, 0, 0, 0,
              0, 0, 0, 0, 0, 0, 0, 0, 0, 101, 0, 0, 0],
             [4, 0, 0, 0, 40, 0, 0, 0, 8, 0, 0, 0, 114, 101, 99, 111, 114, 100, 49, 56, 0, 0, 0, 0, 0, 0, 0, 0, 0, 0, 0,
              0, 0, 0, 0, 0, 0, 0, 0, 0, 0, 0, 0, 0, 118, 0, 0, 0, 40, 0, 0, 0, 8, 0, 0, 0, 114, 101, 99, 111, 114, 100,
              49, 55, 0, 0, 0, 0, 0, 0, 0, 0, 0, 0, 0, 0, 0, 0, 0, 0, 0, 0, 0, 0, 0, 0, 0, 0, 117, 0, 0, 0, 40, 0, 0, 0,
              8, 0, 0, 0, 114, 101, 99, 111, 114, 100, 49, 54, 0, 0, 0, 0, 0, 0, 0, 0, 0, 0, 0, 0, 0, 0, 0, 0, 0, 0, 0, 0,
              0, 0, 0, 0, 116, 0, 0, 0, 40, 0, 0, 0, 8, 0, 0, 0, 114, 101, 99, 111, 114, 100, 49, 53, 0, 0, 0, 0, 0, 0, 0,
              0, 0, 0, 0, 0, 0, 0, 0, 0, 0, 0, 0, 0, 0, 0, 0, 0, 115, 0, 0, 0, 40, 0, 0, 0, 8, 0, 0, 0, 114, 101, 99, 111,
              114, 100, 49, 52, 0, 0, 0, 0, 0, 0, 0, 0, 0, 0, 0, 0, 0, 0, 0, 0, 0, 0, 0, 0, 0, 0, 0, 0, 114, 0, 0, 0, 40,
              0, 0, 0, 8, 0, 0, 0, 114, 101, 99, 111, 114, 100, 49, 51, 0, 0, 0, 0, 0, 0, 0, 0, 0, 0, 0, 0, 0, 0, 0, 0, 0,
              0, 0, 0, 0, 0, 0, 0, 113, 0, 0, 0, 40, 0, 0, 0, 8, 0, 0, 0, 114, 101, 99, 111, 114, 100, 49, 50, 0, 0, 0, 0,
              0, 0, 0, 0, 0, 0, 0, 0, 0, 0, 0, 0, 0, 0, 0, 0, 0, 0, 0, 0, 112, 0, 0, 0, 40, 0, 0, 0, 8, 0, 0, 0, 114, 101,
              99, 111, 114, 100, 49, 49, 0, 0, 0, 0, 0, 0, 0, 0, 0, 0, 0, 0, 0, 0, 0, 0, 0, 0, 0, 0, 0, 0, 0, 0, 111, 0,
              0, 0, 40, 0, 0, 0, 8, 0, 0, 0, 114, 101, 99, 111, 114, 100, 49, 48, 0, 0, 0, 0, 0, 0, 0, 0, 0, 0, 0, 0, 0,
              0, 0, 0, 0, 0, 0, 0, 0, 0, 0, 0, 110, 0, 0, 0],
             [4, 0, 0, 0, 40, 0, 0, 0, 8, 0, 0, 0, 114, 101, 99, 111, 114, 100, 50, 55, 0, 0, 0, 0, 0, 0, 0, 0, 0, 0, 0,
              0, 0, 0, 0, 0, 0, 0, 0, 0, 0, 0, 0, 0, 127, 0, 0, 0, 40, 0, 0, 0, 8, 0, 0, 0, 114, 101, 99, 111, 114, 100,
              50, 54, 0, 0, 0, 0, 0, 0, 0, 0, 0, 0, 0, 0, 0, 0, 0, 0, 0, 0, 0, 0, 0, 0, 0, 0, 126, 0, 0, 0, 40, 0, 0, 0,
              8, 0, 0, 0, 114, 101, 99, 111, 114, 100, 50, 53, 0, 0, 0, 0, 0, 0, 0, 0, 0, 0, 0, 0, 0, 0, 0, 0, 0, 0, 0, 0,
              0, 0, 0, 0, 125, 0, 0, 0, 40, 0, 0, 0, 8, 0, 0, 0, 114, 101, 99, 111, 114, 100, 50, 52, 0, 0, 0, 0, 0, 0, 0,
              0, 0, 0, 0, 0, 0, 0, 0, 0, 0, 0, 0, 0, 0, 0, 0, 0, 124, 0, 0, 0, 40, 0, 0, 0, 8, 0, 0, 0, 114, 101, 99, 111,
              114, 100, 50, 51, 0, 0, 0, 0, 0, 0, 0, 0, 0, 0, 0, 0, 0, 0, 0, 0, 0, 0, 0, 0, 0, 0, 0, 0, 123, 0, 0, 0, 40,
              0, 0, 0, 8, 0, 0, 0, 114, 101, 99, 111, 114, 100, 50, 50, 0, 0, 0, 0, 0, 0, 0, 0, 0, 0, 0, 0, 0, 0, 0, 0, 0,
              0, 0, 0, 0, 0, 0, 0, 122, 0, 0, 0, 40, 0, 0, 0, 8, 0, 0, 0, 114, 101, 99, 111, 114, 100, 50, 49, 0, 0, 0, 0,
              0, 0, 0, 0, 0, 0, 0, 0, 0, 0, 0, 0, 0, 0, 0, 0, 0, 0, 0, 0, 121, 0, 0, 0, 40, 0, 0, 0, 8, 0, 0, 0, 114, 101,
              99, 111, 114, 100, 50, 48, 0, 0, 0, 0, 0, 0, 0, 0, 0, 0, 0, 0, 0, 0, 0, 0, 0, 0, 0, 0, 0, 0, 0, 0, 120, 0,
              0, 0, 40, 0, 0, 0, 8, 0, 0, 0, 114, 101, 99, 111, 114, 100, 49, 57, 0, 0, 0, 0, 0, 0, 0, 0, 0, 0, 0, 0, 0,
              0, 0, 0, 0, 0, 0, 0, 0, 0, 0, 0, 119, 0, 0, 0],
             [144, 1, 0, 0, 40, 0, 0, 0, 8, 0, 0, 0, 114, 101, 99, 111, 114, 100, 50, 55, 0, 0, 0, 0, 0, 0, 0, 0, 0, 0, 0,
              0, 0, 0, 0, 0, 0, 0, 0, 0, 0, 0, 0, 0, 127, 0, 0, 0, 40, 0, 0, 0, 8, 0, 0, 0, 114, 101, 99, 111, 114, 100,
              50, 54, 0, 0, 0, 0, 0, 0, 0, 0, 0, 0, 0, 0, 0, 0, 0, 0, 0, 0, 0, 0, 0, 0, 0, 0, 126, 0, 0, 0, 40, 0, 0, 0,
              8, 0, 0, 0, 114, 101, 99, 111, 114, 100, 50, 53, 0, 0, 0, 0, 0, 0, 0, 0, 0, 0, 0, 0, 0, 0, 0, 0, 0, 0, 0, 0,
              0, 0, 0, 0, 125, 0, 0, 0, 40, 0, 0, 0, 8, 0, 0, 0, 114, 101, 99, 111, 114, 100, 50, 52, 0, 0, 0, 0, 0, 0, 0,
              0, 0, 0, 0, 0, 0, 0, 0, 0, 0, 0, 0, 0, 0, 0, 0, 0, 124, 0, 0, 0, 40, 0, 0, 0, 8, 0, 0, 0, 114, 101, 99, 111,
              114, 100, 50, 51, 0, 0, 0, 0, 0, 0, 0, 0, 0, 0, 0, 0, 0, 0, 0, 0, 0, 0, 0, 0, 0, 0, 0, 0, 123, 0, 0, 0, 40,
              0, 0, 0, 8, 0, 0, 0, 114, 101, 99, 111, 114, 100, 50, 50, 0, 0, 0, 0, 0, 0, 0, 0, 0, 0, 0, 0, 0, 0, 0, 0, 0,
              0, 0, 0, 0, 0, 0, 0, 122, 0, 0, 0, 40, 0, 0, 0, 8, 0, 0, 0, 114, 101, 99, 111, 114, 100, 50, 49, 0, 0, 0, 0,
              0, 0, 0, 0, 0, 0, 0, 0, 0, 0, 0, 0, 0, 0, 0, 0, 0, 0, 0, 0, 121, 0, 0, 0, 40, 0, 0, 0, 8, 0, 0, 0, 114, 101,
              99, 111, 114, 100, 50, 48, 0, 0, 0, 0, 0, 0, 0, 0, 0, 0, 0, 0, 0, 0, 0, 0, 0, 0, 0, 0, 0, 0, 0, 0, 120, 0,
              0, 0, 40, 0, 0, 0, 8, 0, 0, 0, 114, 101, 99, 111, 114, 100, 49, 57, 0, 0, 0, 0, 0, 0, 0, 0, 0, 0, 0, 0, 0,
              0, 0, 0, 0, 0, 0, 0, 0, 0, 0, 0, 119, 0, 0, 0]],
    logpage := [48, 0, 0, 0, 40, 0, 0, 0, 8, 0, 0, 0, 114, 101, 99, 111, 114, 100, 50, 55, 0, 0, 0, 0, 0, 0, 0, 0, 0, 0,
                0, 0, 0, 0, 0, 0, 0, 0, 0, 0, 0, 0, 0, 0, 127, 0, 0, 0, 40, 0, 0, 0, 8, 0, 0, 0, 114, 101, 99, 111, 114,
                100, 51, 53, 0, 0, 0, 0, 0, 0, 0, 0, 0, 0, 0, 0, 0, 0, 0, 0, 0, 0, 0, 0, 0, 0, 0, 0, 135, 0, 0, 0, 40, 0,
                0, 0, 8, 0, 0, 0, 114, 101, 99, 111, 114, 100, 51, 52, 0, 0, 0, 0, 0, 0, 0, 0, 0, 0, 0, 0, 0, 0, 0, 0, 0,
                0, 0, 0, 0, 0, 0, 0, 134, 0, 0, 0, 40, 0, 0, 0, 8, 0, 0, 0, 114, 101, 99, 111, 114, 100, 51, 51, 0, 0, 0,
                0, 0, 0, 0, 0, 0, 0, 0, 0, 0, 0, 0, 0, 0, 0, 0, 0, 0, 0, 0, 0, 133, 0, 0, 0, 40, 0, 0, 0, 8, 0, 0, 0, 114,
                101, 99, 111, 114, 100, 51, 50, 0, 0, 0, 0, 0, 0, 0, 0, 0, 0, 0, 0, 0, 0, 0, 0, 0, 0, 0, 0, 0, 0, 0, 0,
                132, 0, 0, 0, 40, 0, 0, 0, 8, 0, 0, 0, 114, 101, 99, 111, 114, 100, 51, 49, 0, 0, 0, 0, 0, 0, 0, 0, 0, 0,
                0, 0, 0, 0, 0, 0, 0, 0, 0, 0, 0, 0, 0, 0, 131, 0, 0, 0, 40, 0, 0, 0, 8, 0, 0, 0, 114, 101, 99, 111, 114,
                100, 51, 48, 0, 0, 0, 0, 0, 0, 0, 0, 0, 0, 0, 0, 0, 0, 0, 0, 0, 0, 0, 0, 0, 0, 0, 0, 130, 0, 0, 0, 40, 0,
                0, 0, 8, 0, 0, 0, 114, 101, 99, 111, 114, 100, 50, 57, 0, 0, 0, 0, 0, 0, 0, 0, 0, 0, 0, 0, 0, 0, 0, 0, 0,
                0, 0, 0, 0, 0, 0, 0, 129, 0, 0, 0, 40, 0, 0, 0, 8, 0, 0, 0, 114, 101, 99, 111, 114, 100, 50, 56, 0, 0, 0,
                0, 0, 0, 0, 0, 0, 0, 0, 0, 0, 0, 0, 0, 0, 0, 0, 0, 0, 0, 0, 0, 128, 0, 0, 0],
    currentblk := 3,
    latestLsn := 35,
    lastSavedLsn := 27 }

set_option maxRecDepth 8000 in
theorem s2Stage_eval : s2Stage = s2StageLit := by decide

set_option maxRecDepth 8000 in
/-- C6.  Log iteration order, scenario S2: after appending the records
`("record1",101)` through `("record70",170)` (block size 400) the iterator —
which first flushes the current page — yields them most-recent first, i.e.
`("record70",170), ("record69",169), …, ("record1",101)`, moving backwards
inside each block and then block-by-block down to block 0
(`simpledbpy/log.py`, `LogMgr.append` and `LogIterator.__next__`). -/
theorem C6_log_iteration_s2 :
    (LogMgr.iterate s2Final 100).map decodeLogRec =
      (List.range 70).reverse.map
        (fun i => some (recordName (i + 1), (i : Int) + 101)) := by
  have h1 : s2Final =
      s2RecordsB.foldl (fun st r => (LogMgr.append st (createLogRecord r.1 r.2)).1)
        s2StageLit := by
    show s2Records.foldl
      (fun st r => (LogMgr.append st (createLogRecord r.1 r.2)).1)
      (LogMgr.init 400) = _
    rw [s2Records_split, List.foldl_append]
    rw [show s2RecordsA.foldl
      (fun st r => (LogMgr.append st (createLogRecord r.1 r.2)).1)
      (LogMgr.init 400) = s2StageLit from s2Stage_eval]
  rw [h1]
  decide

/-- Concrete reachable state for the C4 counterexample: a fresh block-size-400
log after one `append`; `latest_lsn = 1`, `last_saved_lsn = 0`, and the
appended record lives only in the in-memory page, not yet on disk. -/
def c4State : LogMgrState :=
  (LogMgr.append (LogMgr.init 400) (createLogRecord (recordName 1) 101)).1

/-- C4 counterexample.  The claim says `flush(lsn)` is a no-op (no disk
write, state unchanged) whenever `lsn ≤ last_saved_lsn`.  In the reachable
state `c4State` we have `last_saved_lsn = 0`, yet `flush(0)` writes the
current page to disk and advances `last_saved_lsn` to 1: the source guard is
`lsn >= last_saved_lsn`, so equality triggers a write. -/
theorem C4_flush_boundary_counterexample :
    c4State.lastSavedLsn = 0 ∧
    (LogMgr.flush c4State 0).disk ≠ c4State.disk ∧
    (LogMgr.flush c4State 0).lastSavedLsn = 1 := by
  refine ⟨by decide, by decide, by decide⟩

/-- C4 (amended).  `LogMgr.flush(lsn)` is a no-op exactly when
`lsn < last_saved_lsn`; for every `lsn ≥ last_saved_lsn` it writes the
current log page to the current block and sets `last_saved_lsn` to
`latest_lsn` (`simpledbpy/log.py` lines 29-31 and 58-60). -/
theorem C4_logmgr_flush_amended (st : LogMgrState) (lsn : Int) :
    (lsn < (st.lastSavedLsn : Int) → LogMgr.flush st lsn = st) ∧
    ((st.lastSavedLsn : Int) ≤ lsn →
      LogMgr.flush st lsn = LogMgr.flushInternal st ∧
      (LogMgr.flush st lsn).disk = st.disk.set st.currentblk st.logpage ∧
      (LogMgr.flush st lsn).lastSavedLsn = st.latestLsn) := by
  constructor
  · intro h
    unfold LogMgr.flush
    rw [if_neg (by omega)]
  · intro h
    unfold LogMgr.flush
    rw [if_pos (by omega)]
    exact ⟨rfl, rfl, rfl⟩

/-- Witness for the amended C4 at the concrete reachable state `c4State`:
`flush(-1)` with `last_saved_lsn = 0` really is a no-op, and `flush(0)`
really saves up to `latest_lsn`. -/
theorem C4_logmgr_flush_amended_witness :
    LogMgr.flush c4State (-1) = c4State ∧
    (LogMgr.flush c4State 0).lastSavedLsn = c4State.latestLsn :=
  ⟨(C4_logmgr_flush_amended c4State (-1)).1 (by decide),
   ((C4_logmgr_flush_amended c4State 0).2 (by decide)).2.2⟩

/-- State of a `Buffer` (`simpledbpy/buffer.py`): `txnum` is the modifying
transaction (−1 when clean), `lsn` the LSN justifying the dirt. -/
structure BufferState where
  txnum : Int
  lsn : Int
  blk : Option BlockId
  contents : Bytes
deriving DecidableEq, Repr

/-- `Buffer.flush` from `simpledbpy/buffer.py` lines 57-61: if dirty and
holding a block, flush the log up to `lsn`, write the page to the block, and
then `self._txnum -= 1`.  The data disk is a map from `BlockId` to block
contents. -/
def Buffer.flush (b : BufferState) (lm : LogMgrState) (disk : BlockId → Bytes) :
    BufferState × LogMgrState × (BlockId → Bytes) :=
  if 0 ≤ b.txnum ∧ b.blk.isSome then
    ({ b with txnum := b.txnum - 1 }, LogMgr.flush lm b.lsn,
      fun x => if some x = b.blk then b.contents else disk x)
  else (b, lm, disk)

/-- C2.  What `Buffer.flush` actually does on a dirty buffer holding a block:
it flushes the log up to the buffer's `lsn` and writes the page to disk as
the claim says, but afterwards `modifying_tx` equals the old value minus one
— not −1 — so for every starting `modifying_tx ≥ 1` the buffer is NOT marked
clean (`self._txnum -= 1` in `simpledbpy/buffer.py` line 61). -/
theorem C2_buffer_flush_decrements (b : BufferState) (lm : LogMgrState)
    (disk : BlockId → Bytes) (blk : BlockId) (hblk : b.blk = some blk)
    (htx : 0 ≤ b.txnum) :
    (Buffer.flush b lm disk).1.txnum = b.txnum - 1 ∧
    (Buffer.flush b lm disk).2.1 = LogMgr.flush lm b.lsn ∧
    (Buffer.flush b lm disk).2.2 blk = b.contents ∧
    (1 ≤ b.txnum → (Buffer.flush b lm disk).1.txnum ≠ -1) := by
  unfold Buffer.flush
  rw [if_pos ⟨htx, by rw [hblk]; rfl⟩]
  refine ⟨rfl, rfl, ?_, fun h1 => ?_⟩
  · show (if some blk = b.blk then b.contents else disk blk) = b.contents
    rw [hblk]
    simp
  · show b.txnum - 1 ≠ -1
    omega

/-- Concrete dirty buffer for the C2 witness: `modifying_tx = 5`. -/
def c2Buf : BufferState :=
  { txnum := 5, lsn := 0, blk := some { filename := "f", blknum := 0 },
    contents := [1, 2, 3, 4] }

/-- Witness for C2: flushing the dirty buffer `c2Buf` leaves
`modifying_tx = 4`, which is not −1. -/
theorem C2_buffer_flush_decrements_witness :
    (Buffer.flush c2Buf (LogMgr.init 8) (fun _ => [])).1.txnum = 5 - 1 ∧
    (Buffer.flush c2Buf (LogMgr.init 8) (fun _ => [])).2.1 =
      LogMgr.flush (LogMgr.init 8) c2Buf.lsn ∧
    (Buffer.flush c2Buf (LogMgr.init 8) (fun _ => [])).2.2
      { filename := "f", blknum := 0 } = c2Buf.contents ∧
    (1 ≤ c2Buf.txnum →
      (Buffer.flush c2Buf (LogMgr.init 8) (fun _ => [])).1.txnum ≠ -1) :=
  C2_buffer_flush_decrements c2Buf (LogMgr.init 8) (fun _ => [])
    { filename := "f", blknum := 0 } rfl (by decide)

/-- Value a SETINT or SETSTRING log record carries: an int or a string
(as a code-point list), matching `SetIntRecord._val` / `SetStringRecord._val`
in `simpledbpy/recovery.py`. -/
inductive CellVal where
  | i (n : Int)
  | s (str : List Nat)
deriving DecidableEq, Repr

/-- Cell address: a block plus a byte offset inside it (the (blk, offset)
pair a SETINT/SETSTRING record names). -/
abbrev Cell := BlockId × Int

/-- GHOST cell-level view of the page contents: one value per (blk, offset)
cell, with distinct cells independent.  This is NOT the program — the source
mutates page bytes, and writes at overlapping offsets interfere (see the
byte-level counterexample below).  It is the abstract side of the
refinement: `cellInv` ties each tracked cell's byte region in the real
byte-level pages to this view, and the byte-level theorem is derived from
the ghost-level one through that invariant. -/
abbrev Store := Cell → CellVal

/-- Log records of `simpledbpy/recovery.py` (`LogType` 0-5).  The two
pre-image record kinds SETINT and SETSTRING are merged into `setCell` whose
payload carries the tagged old value; both undo by writing the old value
back with `ok_to_log=False`. -/
inductive LogRecR where
  | checkpoint
  | start (txnum : Int)
  | commit (txnum : Int)
  | rollbackRec (txnum : Int)
  | setCell (txnum : Int) (blk : BlockId) (offset : Int) (oldval : CellVal)
deriving DecidableEq, Repr

/-- `tx_number()`: −1 for CHECKPOINT, the stored txnum otherwise. -/
def LogRecR.txNumber : LogRecR → Int
  | .checkpoint => -1
  | .start t => t
  | .commit t => t
  | .rollbackRec t => t
  | .setCell t _ _ _ => t

/-- Pointwise update of the ghost cell view (the abstract counterpart of a
page mutation; its byte-level effect is `applyCellWrite` below). -/
def updateStore (st : Store) (blk : BlockId) (off : Int) (v : CellVal) : Store :=
  fun q => if q = (blk, off) then v else st q

/-- Ghost counterpart of one logged write: record the old cell value, then
update the cell.  The byte-level embedding of `Transaction.set_*` with
`ok_to_log=True` is `loggedSetB` below; `simRun` proves the two produce the
same log and related states on disjoint cells.  The log list is kept
newest-first, matching the iteration order of `LogMgr`. -/
def loggedSet (tx : Int) (acc : Store × List LogRecR) (blk : BlockId)
    (off : Int) (v : CellVal) : Store × List LogRecR :=
  (updateStore acc.1 blk off v, .setCell tx blk off (acc.1 (blk, off)) :: acc.2)

/-- Ghost run of a transaction's logged writes in program order (byte-level
embedding: `runWritesB` below). -/
def runWrites (tx : Int) (st : Store) (log0 : List LogRecR)
    (ws : List (BlockId × Int × CellVal)) : Store × List LogRecR :=
  ws.foldl (fun acc w => loggedSet tx acc w.1 w.2.1 w.2.2) (st, log0)

/-- Ghost counterpart of `RecoveryMgr._do_rollback` (`recovery.py` lines
312-319): walk the log newest-to-oldest; records of this transaction are
undone, and the walk stops at this transaction's START record.  The
byte-level embedding of the same walk is `doRollbackB` below. -/
def doRollback (tx : Int) (st : Store) : List LogRecR → Store
  | [] => st
  | r :: rest =>
    if r.txNumber = tx then
      match r with
      | .start _ => st
      | .setCell _ blk off old => doRollback tx (updateStore st blk off old) rest
      | _ => doRollback tx st rest
    else doRollback tx st rest

/-- Undoing a write with its own pre-image restores the store. -/
theorem updateStore_undo (st : Store) (blk : BlockId) (off : Int) (v : CellVal) :
    updateStore (updateStore st blk off v) blk off (st (blk, off)) = st := by
  funext q
  unfold updateStore
  by_cases h : q = (blk, off)
  · rw [if_pos h, h]
  · rw [if_neg h, if_neg h]

theorem doRollback_runWrites (tx : Int) (ws : List (BlockId × Int × CellVal)) :
    ∀ (st : Store) (L : List LogRecR) (q : Cell),
      doRollback tx (runWrites tx st L ws).1 (runWrites tx st L ws).2 q =
        doRollback tx st L q := by
  induction ws with
  | nil => intro st L q; rfl
  | cons w ws ih =>
    intro st L q
    have hstep : runWrites tx st L (w :: ws) =
        runWrites tx (updateStore st w.1 w.2.1 w.2.2)
          (.setCell tx w.1 w.2.1 (st (w.1, w.2.1)) :: L) ws := rfl
    rw [hstep, ih]
    rw [doRollback]
    rw [if_pos (by rfl)]
    rw [updateStore_undo]

/-- Pre-image of the FIRST write of the run to cell `q`, in the ghost view:
the value stored at `q` at the moment that write happens (ghost writes to
other cells in between do not change it). -/
def firstPreimage (st : Store) (ws : List (BlockId × Int × CellVal))
    (q : Cell) : CellVal :=
  match ws with
  | [] => st q
  | (blk, off, v) :: rest =>
    if (blk, off) = q then st q
    else firstPreimage (updateStore st blk off v) rest q

theorem firstPreimage_eq_init (ws : List (BlockId × Int × CellVal)) :
    ∀ (st : Store) (q : Cell), firstPreimage st ws q = st q := by
  induction ws with
  | nil => intro st q; rfl
  | cons w ws ih =>
    intro st q
    obtain ⟨blk, off, v⟩ := w
    rw [firstPreimage]
    by_cases h : (blk, off) = q
    · rw [if_pos h]
    · rw [if_neg h, ih]
      unfold updateStore
      rw [if_neg (fun hq => h hq.symm)]

/-- Kind of a cell value: `false` for int, `true` for string. -/
def CellVal.isStr : CellVal → Bool
  | .i _ => false
  | .s _ => true

/-- Bytes a value occupies on the page once written: `struct.pack("<i", n)`
for an int; the unsigned length prefix followed by the UTF-8 payload for a
string (`Page.set_int` / `set_bytes` / `set_string`). -/
def CellVal.enc : CellVal → Bytes
  | .i n => encodeI32 n
  | .s t => encodeU32 (utf8Encode t).length ++ utf8Encode t

/-- Values the Python writers accept: ints within the 32-bit signed range
(`struct.pack("<i", ...)` raises otherwise) and strings of Unicode scalar
values whose encoding fits the 32-bit length prefix. -/
def CellVal.Good : CellVal → Prop
  | .i n => -2147483648 ≤ n ∧ n < 2147483648
  | .s t => (∀ ch ∈ t, ScalarValue ch) ∧ (utf8Encode t).length < 4294967296

instance (v : CellVal) : Decidable (CellVal.Good v) := by
  cases v <;> (unfold CellVal.Good; infer_instance)

/-- The page-byte mutation of one value write: `Page.set_int` for an int,
`Page.set_string` for a string (`rdbpy/file.py`). -/
def writeVal (p : Bytes) (off : Nat) : CellVal → Bytes
  | .i n => Page.set_int p off n
  | .s t => Page.set_string p off t

/-- Byte-level effect of `tx.set_int` / `tx.set_string` on the pages (the
pinned buffer's page for `blk`): mutate that block's bytes with
`Page.set_int` / `Page.set_string`, leave other blocks alone
(`simpledbpy/transaction.py` lines 101-119). -/
def applyCellWrite (pages : BlockId → Bytes) (blk : BlockId) (off : Nat)
    (v : CellVal) : BlockId → Bytes :=
  fun b => if b = blk then writeVal (pages blk) off v else pages b

/-- Byte-level read of a cell, as the program reads it back: `get_int` for
an int cell, `get_string` for a string cell (a failed UTF-8 decode — a
`UnicodeDecodeError` — is collapsed to the empty string; the theorems'
hypotheses keep decoding successful). -/
def readValB (pages : BlockId → Bytes) (blk : BlockId) (off : Nat)
    (isStr : Bool) : CellVal :=
  if isStr then .s ((Page.get_string (pages blk) off).getD [])
  else .i (Page.get_int (pages blk) off)

/-- Geometry of a cell a transaction writes: its block, its byte offset,
and the length of the byte region reserved for it (4 for an int; for a
string, enough for the prefixed encodings of every value the cell holds). -/
structure CellSpec where
  blk : BlockId
  off : Nat
  len : Nat
deriving DecidableEq, Repr

/-- One logged write at byte level (`Transaction.set_int` / `set_string`
with `ok_to_log=True`, `simpledbpy/transaction.py` lines 101-119):
`RecoveryMgr.set_int`/`set_string` first read the OLD value at (blk, offset)
from the page with `get_int`/`get_string` and append a SETINT/SETSTRING
record carrying it (`recovery.py` lines 300-310), then the page bytes are
mutated.  Newest log record first. -/
def loggedSetB (tx : Int) (acc : (BlockId → Bytes) × List LogRecR)
    (blk : BlockId) (off : Nat) (v : CellVal) :
    (BlockId → Bytes) × List LogRecR :=
  match v with
  | .i n =>
    (applyCellWrite acc.1 blk off (.i n),
     .setCell tx blk (off : Int) (.i (Page.get_int (acc.1 blk) off)) :: acc.2)
  | .s s =>
    (applyCellWrite acc.1 blk off (.s s),
     .setCell tx blk (off : Int)
       (.s ((Page.get_string (acc.1 blk) off).getD [])) :: acc.2)

/-- Byte-level run of a transaction's logged writes in program order. -/
def runWritesB (tx : Int) (pages : BlockId → Bytes) (log0 : List LogRecR)
    (ws : List (CellSpec × CellVal)) : (BlockId → Bytes) × List LogRecR :=
  ws.foldl (fun acc w => loggedSetB tx acc w.1.blk w.1.off w.2) (pages, log0)

/-- `SetIntRecord.undo` / `SetStringRecord.undo` (`recovery.py` lines
192-195 and 245-248): pin the block and re-write the logged old value with
`ok_to_log=False` — the same page-byte mutation as a logged set.  Logged
offsets are the nonnegative ints the run wrote. -/
def undoCellB (pages : BlockId → Bytes) (blk : BlockId) (off : Int)
    (old : CellVal) : BlockId → Bytes :=
  applyCellWrite pages blk off.toNat old

/-- `RecoveryMgr._do_rollback` (`recovery.py` lines 312-319) at byte level:
walk the log newest-to-oldest, undo this transaction's SETINT/SETSTRING
records, stop at its START record. -/
def doRollbackB (tx : Int) (pages : BlockId → Bytes) :
    List LogRecR → (BlockId → Bytes)
  | [] => pages
  | r :: rest =>
    if r.txNumber = tx then
      match r with
      | .start _ => pages
      | .setCell _ blk off old => doRollbackB tx (undoCellB pages blk off old) rest
      | _ => doRollbackB tx pages rest
    else doRollbackB tx pages rest

/-- Ghost image of a byte-level write list. -/
def wsToCells (ws : List (CellSpec × CellVal)) : List (BlockId × Int × CellVal) :=
  ws.map (fun w => (w.1.blk, (w.1.off : Int), w.2))

/-- All-zero 16-byte single-block pages for the overlap counterexample. -/
def c5pages0 : BlockId → Bytes :=
  fun _ => List.replicate 16 0

/-- Block used by the overlap counterexample. -/
def c5blk : BlockId :=
  { filename := "t", blknum := 1 }

/-- Overlapping write list: `set_int(blk, 0, 0x01010101)` then
`set_int(blk, 2, 0)` — the two 4-byte ranges [0,4) and [2,6) overlap. -/
def c5overlapWrites : List (CellSpec × CellVal) :=
  [(⟨c5blk, 0, 4⟩, .i 16843009), (⟨c5blk, 2, 4⟩, .i 0)]

/-- C5 counterexample (byte level).  On an all-zero page, transaction 7 does
`set_int(blk,0,0x01010101)` then `set_int(blk,2,0)` and rolls back.  At the
moment of its first (and only) logged write to (blk, 2) the value there is
257 (bytes 2..5 are 01 01 00 00 after the first write) — that is also the
pre-image its SETINT record carries.  After `rollback()` the stored value at
(blk, 2) is 0, not 257: the older undo at offset 0 rewrites bytes 0..3 and
clobbers bytes 2..3.  So the claim's universal per-offset property is false
of the byte-level program when logged writes overlap. -/
theorem C5_overlap_counterexample :
    Page.get_int
        ((runWritesB 7 c5pages0 [LogRecR.start 7]
          (c5overlapWrites.take 1)).1 c5blk) 2 = 257 ∧
    (runWritesB 7 c5pages0 [LogRecR.start 7] c5overlapWrites).2 =
      [LogRecR.setCell 7 c5blk 2 (.i 257), LogRecR.setCell 7 c5blk 0 (.i 0),
       LogRecR.start 7] ∧
    Page.get_int
        ((doRollbackB 7
          (runWritesB 7 c5pages0 [LogRecR.start 7] c5overlapWrites).1
          (runWritesB 7 c5pages0 [LogRecR.start 7] c5overlapWrites).2) c5blk)
        2 = 0 ∧
    (0 : Int) ≠ 257 := by
  exact ⟨by decide, by decide, by decide, by decide⟩

theorem length_readRange_le (p : Bytes) (o k : Nat) :
    (Page.readRange p o k).length ≤ k := by
  simp only [Page.readRange, List.length_take, List.length_drop]
  omega

theorem readRange_split (p : Bytes) (o k1 k2 : Nat) :
    Page.readRange p o (k1 + k2) =
      Page.readRange p o k1 ++ Page.readRange p (o + k1) k2 := by
  simp only [Page.readRange, List.take_add, List.drop_drop]

theorem readRange_setRange_disjoint (p ws : Bytes) (o o2 k : Nat)
    (hdisj : o + k ≤ o2 ∨ o2 + ws.length ≤ o)
    (hp : o2 + ws.length ≤ p.length) :
    Page.readRange (Page.setRange p o2 ws) o k = Page.readRange p o k := by
  rcases hdisj with h | h
  · exact readRange_setRange_before p ws o o2 k h (by omega)
  · exact readRange_setRange_after p ws o o2 k h hp

theorem length_writeVal (p : Bytes) (off : Nat) (v : CellVal)
    (h : off + v.enc.length ≤ p.length) :
    (writeVal p off v).length = p.length := by
  cases v with
  | i n =>
    exact length_setRange p (encodeI32 n) off h
  | s t =>
    have hL : (CellVal.enc (CellVal.s t)).length = 4 + (utf8Encode t).length := by
      simp [CellVal.enc, length_encodeU32]
    rw [hL] at h
    have h1 : (Page.setRange p off (encodeU32 (utf8Encode t).length)).length =
        p.length :=
      length_setRange _ _ _ (by rw [length_encodeU32]; omega)
    show (Page.setRange (Page.setRange p off (encodeU32 (utf8Encode t).length))
        (off + 4) (utf8Encode t)).length = p.length
    rw [length_setRange _ _ _ (by rw [h1]; omega), h1]

theorem readRange_writeVal_self (p : Bytes) (off : Nat) (v : CellVal)
    (h : off + v.enc.length ≤ p.length) :
    Page.readRange (writeVal p off v) off v.enc.length = v.enc := by
  cases v with
  | i n =>
    exact readRange_setRange_self p (encodeI32 n) off h
  | s t =>
    have hL : (CellVal.enc (CellVal.s t)).length = 4 + (utf8Encode t).length := by
      simp [CellVal.enc, length_encodeU32]
    rw [hL] at h
    have h1 : (Page.setRange p off (encodeU32 (utf8Encode t).length)).length =
        p.length :=
      length_setRange _ _ _ (by rw [length_encodeU32]; omega)
    show Page.readRange
        (Page.setRange (Page.setRange p off (encodeU32 (utf8Encode t).length))
          (off + 4) (utf8Encode t)) off (CellVal.enc (CellVal.s t)).length
      = encodeU32 (utf8Encode t).length ++ utf8Encode t
    rw [hL, readRange_split _ off 4 (utf8Encode t).length]
    have hpre : Page.readRange
        (Page.setRange (Page.setRange p off (encodeU32 (utf8Encode t).length))
          (off + 4) (utf8Encode t)) off 4 = encodeU32 (utf8Encode t).length := by
      rw [readRange_setRange_before _ _ off (off + 4) 4 (by omega) (by rw [h1]; omega)]
      have hs := readRange_setRange_self p (encodeU32 (utf8Encode t).length) off
        (by rw [length_encodeU32]; omega)
      rwa [length_encodeU32] at hs
    have hpay : Page.readRange
        (Page.setRange (Page.setRange p off (encodeU32 (utf8Encode t).length))
          (off + 4) (utf8Encode t)) (off + 4) (utf8Encode t).length =
        utf8Encode t :=
      readRange_setRange_self _ (utf8Encode t) (off + 4) (by rw [h1]; omega)
    rw [hpre, hpay]

theorem readRange_writeVal_other (p : Bytes) (off : Nat) (v : CellVal) (o k : Nat)
    (h : off + v.enc.length ≤ p.length)
    (hdisj : o + k ≤ off ∨ off + v.enc.length ≤ o) :
    Page.readRange (writeVal p off v) o k = Page.readRange p o k := by
  cases v with
  | i n =>
    exact readRange_setRange_disjoint p (encodeI32 n) o off k hdisj h
  | s t =>
    have hL : (CellVal.enc (CellVal.s t)).length = 4 + (utf8Encode t).length := by
      simp [CellVal.enc, length_encodeU32]
    rw [hL] at h hdisj
    have h1 : (Page.setRange p off (encodeU32 (utf8Encode t).length)).length =
        p.length :=
      length_setRange _ _ _ (by rw [length_encodeU32]; omega)
    show Page.readRange
        (Page.setRange (Page.setRange p off (encodeU32 (utf8Encode t).length))
          (off + 4) (utf8Encode t)) o k = Page.readRange p o k
    rw [readRange_setRange_disjoint _ _ o (off + 4) k (by omega) (by rw [h1]; omega)]
    exact readRange_setRange_disjoint _ _ o off k
      (by rw [length_encodeU32]; omega) (by rw [length_encodeU32]; omega)

theorem get_int_of_readRange (p : Bytes) (off : Nat) (n : Int)
    (h1 : -2147483648 ≤ n) (h2 : n < 2147483648)
    (hr : Page.readRange p off (CellVal.enc (CellVal.i n)).length =
      CellVal.enc (CellVal.i n)) :
    Page.get_int p off = n := by
  have hr4 : Page.readRange p off 4 = encodeI32 n := hr
  unfold Page.get_int
  rw [hr4]
  exact decodeI32_encodeI32 n h1 h2

theorem get_string_of_readRange (p : Bytes) (off : Nat) (t : List Nat)
    (hs : ∀ c ∈ t, ScalarValue c) (hL : (utf8Encode t).length < 4294967296)
    (hr : Page.readRange p off (CellVal.enc (CellVal.s t)).length =
      CellVal.enc (CellVal.s t)) :
    Page.get_string p off = some t := by
  have hlen : (CellVal.enc (CellVal.s t)).length = 4 + (utf8Encode t).length := by
    simp [CellVal.enc, length_encodeU32]
  have henc : CellVal.enc (CellVal.s t) =
      encodeU32 (utf8Encode t).length ++ utf8Encode t := rfl
  rw [hlen, readRange_split, henc] at hr
  have hlen1 : (Page.readRange p off 4).length = 4 := by
    have ha := length_readRange_le p off 4
    have hb := length_readRange_le p (off + 4) (utf8Encode t).length
    have h3 := congrArg List.length hr
    simp only [List.length_append, length_encodeU32] at h3
    omega
  obtain ⟨hpre, hpay⟩ := List.append_inj hr (by rw [hlen1, length_encodeU32])
  unfold Page.get_string Page.get_bytes
  rw [hpre, decodeU32_encodeU32 _ hL, hpay]
  exact utf8Decode_utf8Encode t hs

/-- Two reserved cell regions are byte-disjoint: different blocks, or
non-overlapping byte ranges inside the same block. -/
def regionsDisjoint (c c' : CellSpec) : Prop :=
  c.blk ≠ c'.blk ∨ c.off + c.len ≤ c'.off ∨ c'.off + c'.len ≤ c.off

instance (c c' : CellSpec) : Decidable (regionsDisjoint c c') := by
  unfold regionsDisjoint
  infer_instance

/-- Geometry of the tracked cells: each reserved region is at least 4 bytes
(an int, or a string length prefix), lies inside its block, and the regions
are pairwise byte-disjoint — the layout a `Layout`/`RecordPage` produces for
distinct fields (`rdbpy/record.py`). -/
def cellGeom (pages0 : BlockId → Bytes) (cs : List CellSpec) : Prop :=
  (∀ c ∈ cs, 4 ≤ c.len ∧ c.off + c.len ≤ (pages0 c.blk).length) ∧
  cs.Pairwise regionsDisjoint

instance (pages0 : BlockId → Bytes) (cs : List CellSpec) :
    Decidable (cellGeom pages0 cs) := by
  unfold cellGeom
  infer_instance

/-- The ghost value of a tracked cell. -/
def cellVal (st : Store) (c : CellSpec) : CellVal :=
  st (c.blk, (c.off : Int))

/-- A value a cell may hold: in range for the Python packer, of the cell's
declared kind, and its encoding fits the reserved region. -/
def cellFits (κ : CellSpec → Bool) (c : CellSpec) (v : CellVal) : Prop :=
  CellVal.Good v ∧ v.isStr = κ c ∧ v.enc.length ≤ c.len

instance (κ : CellSpec → Bool) (c : CellSpec) (v : CellVal) :
    Decidable (cellFits κ c v) := by
  unfold cellFits
  infer_instance

/-- Refinement invariant tying the byte-level pages to the ghost cell view:
page lengths are those of the initial pages, and every tracked cell's
reserved region starts with the byte encoding of its ghost value. -/
def cellInv (pages0 : BlockId → Bytes) (cs : List CellSpec) (κ : CellSpec → Bool)
    (st : Store) (pages : BlockId → Bytes) : Prop :=
  (∀ b, (pages b).length = (pages0 b).length) ∧
  ∀ c ∈ cs, cellFits κ c (cellVal st c) ∧
    Page.readRange (pages c.blk) c.off (cellVal st c).enc.length =
      (cellVal st c).enc

/-- A write list is well-formed when every write targets a tracked cell with
a fitting value of the cell's kind. -/
def wsGood (cs : List CellSpec) (κ : CellSpec → Bool)
    (ws : List (CellSpec × CellVal)) : Prop :=
  ∀ w ∈ ws, w.1 ∈ cs ∧ cellFits κ w.1 w.2

instance (cs : List CellSpec) (κ : CellSpec → Bool)
    (ws : List (CellSpec × CellVal)) : Decidable (wsGood cs κ ws) := by
  unfold wsGood
  infer_instance

theorem regionsDisjoint_symm (c c' : CellSpec) :
    regionsDisjoint c c' → regionsDisjoint c' c := by
  unfold regionsDisjoint
  tauto

theorem regionsDisjoint_of_mem (cs : List CellSpec)
    (hp : cs.Pairwise regionsDisjoint) :
    ∀ c ∈ cs, ∀ c' ∈ cs, c = c' ∨ regionsDisjoint c c' := by
  induction cs with
  | nil =>
    intro c hc
    exact absurd hc (List.not_mem_nil c)
  | cons a l ih =>
    intro c hc c' hc'
    rcases List.pairwise_cons.mp hp with ⟨ha, hl⟩
    rcases List.mem_cons.mp hc with hceq | hcl
    · rcases List.mem_cons.mp hc' with hceq' | hcl'
      · left
        rw [hceq, hceq']
      · right
        rw [hceq]
        exact ha c' hcl'
    · rcases List.mem_cons.mp hc' with hceq' | hcl'
      · right
        rw [hceq']
        exact regionsDisjoint_symm a c (ha c hcl)
      · exact ih hl c hcl c' hcl'

/-- One logged (or undo) page write preserves the refinement invariant: the
written cell's region now encodes the new ghost value, every other tracked
cell's region is untouched because the regions are pairwise disjoint. -/
theorem cellInv_write (pages0 : BlockId → Bytes) (cs : List CellSpec)
    (κ : CellSpec → Bool) (st : Store) (pages : BlockId → Bytes)
    (c : CellSpec) (v : CellVal)
    (hgeom : cellGeom pages0 cs) (hinv : cellInv pages0 cs κ st pages)
    (hc : c ∈ cs) (hv : cellFits κ c v) :
    cellInv pages0 cs κ (updateStore st c.blk (c.off : Int) v)
      (applyCellWrite pages c.blk c.off v) := by
  obtain ⟨hlenP, hcells⟩ := hinv
  obtain ⟨hbounds, hpair⟩ := hgeom
  obtain ⟨hcb4, hcbnd⟩ := hbounds c hc
  obtain ⟨hvg, hvstr, hvlen⟩ := hv
  have hwb : c.off + v.enc.length ≤ (pages c.blk).length := by
    rw [hlenP]
    omega
  constructor
  · intro b
    simp only [applyCellWrite]
    by_cases hb : b = c.blk
    · rw [if_pos hb, hb, length_writeVal _ _ _ hwb]
      exact hlenP c.blk
    · rw [if_neg hb]
      exact hlenP b
  · intro c' hc'
    obtain ⟨⟨hg', hs', hl'⟩, hr'⟩ := hcells c' hc'
    rcases regionsDisjoint_of_mem cs hpair c' hc' c hc with heq | hdis
    · subst heq
      have hcv : cellVal (updateStore st c'.blk (c'.off : Int) v) c' = v := by
        simp [cellVal, updateStore]
      rw [hcv]
      refine ⟨⟨hvg, hvstr, hvlen⟩, ?_⟩
      have hpg : applyCellWrite pages c'.blk c'.off v c'.blk =
          writeVal (pages c'.blk) c'.off v := by
        simp only [applyCellWrite, if_pos]
      rw [hpg]
      exact readRange_writeVal_self _ _ _ hwb
    · have hcellne : ((c'.blk, (c'.off : Int)) : Cell) ≠ (c.blk, (c.off : Int)) := by
        intro hq
        have hb : c'.blk = c.blk := congrArg Prod.fst hq
        have ho : c'.off = c.off := by
          have h2 : ((c'.off : Int)) = (c.off : Int) := congrArg Prod.snd hq
          exact_mod_cast h2
        obtain ⟨hb4', _⟩ := hbounds c' hc'
        rcases hdis with hbne | hoff | hoff
        · exact hbne hb
        · omega
        · omega
      have hcv : cellVal (updateStore st c.blk (c.off : Int) v) c' =
          cellVal st c' := by
        simp only [cellVal, updateStore]
        rw [if_neg hcellne]
      rw [hcv]
      refine ⟨⟨hg', hs', hl'⟩, ?_⟩
      by_cases hb : c'.blk = c.blk
      · have hpg : applyCellWrite pages c.blk c.off v c'.blk =
            writeVal (pages c.blk) c.off v := by
          simp only [applyCellWrite, if_pos hb]
        rw [hpg]
        obtain ⟨hb4', hbnd'⟩ := hbounds c' hc'
        have hdisj2 : c'.off + (cellVal st c').enc.length ≤ c.off ∨
            c.off + v.enc.length ≤ c'.off := by
          rcases hdis with hbne | hoff | hoff
          · exact absurd hb hbne
          · left
            omega
          · right
            omega
        rw [readRange_writeVal_other _ _ _ _ _ hwb hdisj2, ← hb]
        exact hr'
      · have hpg : applyCellWrite pages c.blk c.off v c'.blk = pages c'.blk := by
          simp only [applyCellWrite, if_neg hb]
        rw [hpg]
        exact hr'

/-- Well-formedness of the log portion the rollback walk can reach: every
SETINT/SETSTRING record of this transaction above its START names a tracked
cell and carries a value fitting that cell.  Records below the START (where
the walk stops) are unconstrained. -/
def logOK (tx : Int) (cs : List CellSpec) (κ : CellSpec → Bool) :
    List LogRecR → Prop
  | [] => True
  | .start t :: rest => t = tx ∨ logOK tx cs κ rest
  | .setCell t blk off old :: rest =>
    (t = tx → ∃ c ∈ cs, blk = c.blk ∧ off = (c.off : Int) ∧ cellFits κ c old) ∧
    logOK tx cs κ rest
  | .checkpoint :: rest => logOK tx cs κ rest
  | .commit _ :: rest => logOK tx cs κ rest
  | .rollbackRec _ :: rest => logOK tx cs κ rest

/-- Under the invariant, the byte-level logged set (which reads its pre-image
from the page with `get_int`/`get_string`, `recovery.py` lines 300-310)
produces exactly the ghost log record: the page pre-image IS the ghost value
of the cell. -/
theorem loggedSetB_eq_ghost (tx : Int) (pages0 : BlockId → Bytes)
    (cs : List CellSpec) (κ : CellSpec → Bool) (st : Store)
    (pages : BlockId → Bytes) (log : List LogRecR) (c : CellSpec) (v : CellVal)
    (hinv : cellInv pages0 cs κ st pages) (hc : c ∈ cs) (hv : v.isStr = κ c) :
    loggedSetB tx (pages, log) c.blk c.off v =
      (applyCellWrite pages c.blk c.off v,
       LogRecR.setCell tx c.blk (c.off : Int) (cellVal st c) :: log) := by
  obtain ⟨⟨hgood, hstr, hlen⟩, hread⟩ := hinv.2 c hc
  cases v with
  | i n =>
    have hk : κ c = false := by simpa [CellVal.isStr] using hv.symm
    cases hval : cellVal st c with
    | i m =>
      rw [hval] at hgood hread
      show (applyCellWrite pages c.blk c.off (.i n),
        LogRecR.setCell tx c.blk (c.off : Int)
          (.i (Page.get_int (pages c.blk) c.off)) :: log) = _
      rw [get_int_of_readRange _ _ m hgood.1 hgood.2 hread]
    | s u =>
      rw [hval] at hstr
      rw [hk] at hstr
      simp [CellVal.isStr] at hstr
  | s t =>
    have hk : κ c = true := by simpa [CellVal.isStr] using hv.symm
    cases hval : cellVal st c with
    | i m =>
      rw [hval] at hstr
      rw [hk] at hstr
      simp [CellVal.isStr] at hstr
    | s u =>
      rw [hval] at hgood hread
      show (applyCellWrite pages c.blk c.off (.s t),
        LogRecR.setCell tx c.blk (c.off : Int)
          (.s ((Page.get_string (pages c.blk) c.off).getD [])) :: log) = _
      rw [get_string_of_readRange _ _ u hgood.1 hgood.2 hread]
      rfl

/-- Under the invariant, the byte-level readback of a tracked cell (int or
string by its kind) is its ghost value. -/
theorem readValB_eq_cellVal (pages0 : BlockId → Bytes) (cs : List CellSpec)
    (κ : CellSpec → Bool) (st : Store) (pages : BlockId → Bytes)
    (hinv : cellInv pages0 cs κ st pages) (c : CellSpec) (hc : c ∈ cs) :
    readValB pages c.blk c.off (κ c) = cellVal st c := by
  obtain ⟨⟨hgood, hstr, hlen⟩, hread⟩ := hinv.2 c hc
  unfold readValB
  cases hval : cellVal st c with
  | i n =>
    rw [hval] at hgood hstr hread
    have hk : κ c = false := by simpa [CellVal.isStr] using hstr.symm
    rw [hk]
    show CellVal.i (Page.get_int (pages c.blk) c.off) = CellVal.i n
    exact congrArg CellVal.i (get_int_of_readRange _ _ n hgood.1 hgood.2 hread)
  | s t =>
    rw [hval] at hgood hstr hread
    have hk : κ c = true := by simpa [CellVal.isStr] using hstr.symm
    rw [hk]
    show CellVal.s ((Page.get_string (pages c.blk) c.off).getD []) = CellVal.s t
    rw [get_string_of_readRange _ _ t hgood.1 hgood.2 hread]
    rfl

theorem runWritesB_cons (tx : Int) (pages : BlockId → Bytes)
    (log : List LogRecR) (w : CellSpec × CellVal)
    (ws : List (CellSpec × CellVal)) :
    runWritesB tx pages log (w :: ws) =
      runWritesB tx (loggedSetB tx (pages, log) w.1.blk w.1.off w.2).1
        (loggedSetB tx (pages, log) w.1.blk w.1.off w.2).2 ws := rfl

/-- Simulation of the byte-level run by the ghost run: starting from related
states and a well-formed log, the two runs write identical logs, the final
states are again related, and the produced log is well-formed. -/
theorem simRun (tx : Int) (pages0 : BlockId → Bytes) (cs : List CellSpec)
    (κ : CellSpec → Bool) (hgeom : cellGeom pages0 cs) :
    ∀ (ws : List (CellSpec × CellVal)) (st : Store) (pages : BlockId → Bytes)
      (log : List LogRecR), wsGood cs κ ws → cellInv pages0 cs κ st pages →
      logOK tx cs κ log →
      (runWritesB tx pages log ws).2 = (runWrites tx st log (wsToCells ws)).2 ∧
      cellInv pages0 cs κ (runWrites tx st log (wsToCells ws)).1
        (runWritesB tx pages log ws).1 ∧
      logOK tx cs κ (runWritesB tx pages log ws).2 := by
  intro ws
  induction ws with
  | nil =>
    intro st pages log _ hinv hlog
    exact ⟨rfl, hinv, hlog⟩
  | cons w ws ih =>
    intro st pages log hws hinv hlog
    obtain ⟨hmem, hfit⟩ := hws w (List.mem_cons_self w ws)
    have hws' : wsGood cs κ ws := fun x hx => hws x (List.mem_cons_of_mem w hx)
    have hstep := loggedSetB_eq_ghost tx pages0 cs κ st pages log w.1 w.2
      hinv hmem hfit.2.1
    have hinv' := cellInv_write pages0 cs κ st pages w.1 w.2 hgeom hinv hmem hfit
    have hlog' : logOK tx cs κ
        (LogRecR.setCell tx w.1.blk (w.1.off : Int) (cellVal st w.1) :: log) :=
      ⟨fun _ => ⟨w.1, hmem, rfl, rfl, (hinv.2 w.1 hmem).1⟩, hlog⟩
    have hB : runWritesB tx pages log (w :: ws) =
        runWritesB tx (applyCellWrite pages w.1.blk w.1.off w.2)
          (LogRecR.setCell tx w.1.blk (w.1.off : Int) (cellVal st w.1) :: log)
          ws := by
      rw [runWritesB_cons, hstep]
    have hG : runWrites tx st log (wsToCells (w :: ws)) =
        runWrites tx (updateStore st w.1.blk (w.1.off : Int) w.2)
          (LogRecR.setCell tx w.1.blk (w.1.off : Int) (cellVal st w.1) :: log)
          (wsToCells ws) := rfl
    rw [hB, hG]
    exact ih (updateStore st w.1.blk (w.1.off : Int) w.2)
      (applyCellWrite pages w.1.blk w.1.off w.2)
      (LogRecR.setCell tx w.1.blk (w.1.off : Int) (cellVal st w.1) :: log)
      hws' hinv' hlog'

/-- Simulation of the byte-level rollback walk by the ghost rollback walk:
from related states and a well-formed log, the two walks end in related
states — each undo re-writes a tracked cell's pre-image, which preserves the
invariant exactly like a forward write. -/
theorem doRollback_cons (tx : Int) (st : Store) (r : LogRecR)
    (rest : List LogRecR) :
    doRollback tx st (r :: rest) =
      if r.txNumber = tx then
        match r with
        | .start _ => st
        | .setCell _ blk off old => doRollback tx (updateStore st blk off old) rest
        | _ => doRollback tx st rest
      else doRollback tx st rest := rfl

theorem doRollbackB_cons (tx : Int) (pages : BlockId → Bytes) (r : LogRecR)
    (rest : List LogRecR) :
    doRollbackB tx pages (r :: rest) =
      if r.txNumber = tx then
        match r with
        | .start _ => pages
        | .setCell _ blk off old =>
          doRollbackB tx (undoCellB pages blk off old) rest
        | _ => doRollbackB tx pages rest
      else doRollbackB tx pages rest := rfl

theorem simRollback (tx : Int) (pages0 : BlockId → Bytes) (cs : List CellSpec)
    (κ : CellSpec → Bool) (hgeom : cellGeom pages0 cs) :
    ∀ (L : List LogRecR) (st : Store) (pages : BlockId → Bytes),
      logOK tx cs κ L → cellInv pages0 cs κ st pages →
      cellInv pages0 cs κ (doRollback tx st L) (doRollbackB tx pages L) := by
  intro L
  induction L with
  | nil =>
    intro st pages _ hinv
    exact hinv
  | cons r rest ih =>
    intro st pages hlog hinv
    cases r with
    | checkpoint =>
      have hlog' : logOK tx cs κ rest := hlog
      rw [doRollback_cons, doRollbackB_cons]
      by_cases h : LogRecR.txNumber LogRecR.checkpoint = tx
      · rw [if_pos h, if_pos h]
        exact ih st pages hlog' hinv
      · rw [if_neg h, if_neg h]
        exact ih st pages hlog' hinv
    | start t =>
      rw [doRollback_cons, doRollbackB_cons]
      by_cases h : LogRecR.txNumber (LogRecR.start t) = tx
      · rw [if_pos h, if_pos h]
        exact hinv
      · rw [if_neg h, if_neg h]
        have hlog' : logOK tx cs κ rest := by
          have h2 : t = tx ∨ logOK tx cs κ rest := hlog
          rcases h2 with h2 | h2
          · exact absurd h2 h
          · exact h2
        exact ih st pages hlog' hinv
    | commit t =>
      have hlog' : logOK tx cs κ rest := hlog
      rw [doRollback_cons, doRollbackB_cons]
      by_cases h : LogRecR.txNumber (LogRecR.commit t) = tx
      · rw [if_pos h, if_pos h]
        exact ih st pages hlog' hinv
      · rw [if_neg h, if_neg h]
        exact ih st pages hlog' hinv
    | rollbackRec t =>
      have hlog' : logOK tx cs κ rest := hlog
      rw [doRollback_cons, doRollbackB_cons]
      by_cases h : LogRecR.txNumber (LogRecR.rollbackRec t) = tx
      · rw [if_pos h, if_pos h]
        exact ih st pages hlog' hinv
      · rw [if_neg h, if_neg h]
        exact ih st pages hlog' hinv
    | setCell t blk off old =>
      obtain ⟨himp, hrest⟩ := hlog
      rw [doRollback_cons, doRollbackB_cons]
      by_cases h : LogRecR.txNumber (LogRecR.setCell t blk off old) = tx
      · rw [if_pos h, if_pos h]
        obtain ⟨c, hcmem, hblk, hoff, hfit⟩ := himp h
        subst hblk
        subst hoff
        have hinv' := cellInv_write pages0 cs κ st pages c old hgeom hinv
          hcmem hfit
        exact ih (updateStore st c.blk (c.off : Int) old)
          (undoCellB pages c.blk (c.off : Int) old) hrest hinv'
      · rw [if_neg h, if_neg h]
        exact ih st pages hrest hinv

/-- C5 (amended).  Undo atomicity at byte level, for byte-disjoint cells: if
transaction `tx`'s logged `set_int`/`set_string` writes all target cells from
a set `cs` of pairwise byte-disjoint, kind-consistent reserved regions (each
written value in packing range and fitting its region), the pages initially
encode a ghost cell view `st0`, and the log below the writes starts at `tx`'s
START record, then after `_do_rollback` the value read back at every written
(blk, offset) equals the value present at the moment of `tx`'s first logged
write to that (blk, offset).  For overlapping writes the property fails in the
source (see the counterexample): a later undo at an overlapping offset
clobbers bytes of an already-undone cell. -/
theorem C5_rollback_restores_bytes
    (tx : Int) (pages0 : BlockId → Bytes) (cs : List CellSpec)
    (κ : CellSpec → Bool) (st0 : Store) (older : List LogRecR)
    (ws : List (CellSpec × CellVal))
    (hgeom : cellGeom pages0 cs) (hws : wsGood cs κ ws)
    (hinv0 : cellInv pages0 cs κ st0 pages0) :
    ∀ w ∈ ws,
      readValB
        (doRollbackB tx
          (runWritesB tx pages0 (LogRecR.start tx :: older) ws).1
          (runWritesB tx pages0 (LogRecR.start tx :: older) ws).2)
        w.1.blk w.1.off (κ w.1)
      = firstPreimage st0 (wsToCells ws) (w.1.blk, (w.1.off : Int)) := by
  intro w hw
  have hlog0 : logOK tx cs κ (LogRecR.start tx :: older) := Or.inl rfl
  obtain ⟨hlogeq, hinvR, hlogok⟩ := simRun tx pages0 cs κ hgeom ws st0 pages0
    (LogRecR.start tx :: older) hws hinv0 hlog0
  have hroll := simRollback tx pages0 cs κ hgeom
    (runWritesB tx pages0 (LogRecR.start tx :: older) ws).2
    (runWrites tx st0 (LogRecR.start tx :: older) (wsToCells ws)).1
    (runWritesB tx pages0 (LogRecR.start tx :: older) ws).1
    hlogok hinvR
  have hghost : doRollback tx
      (runWrites tx st0 (LogRecR.start tx :: older) (wsToCells ws)).1
      (runWritesB tx pages0 (LogRecR.start tx :: older) ws).2 = st0 := by
    rw [hlogeq]
    funext q
    rw [doRollback_runWrites]
    show doRollback tx st0 (LogRecR.start tx :: older) q = st0 q
    rw [doRollback_cons,
      if_pos (show LogRecR.txNumber (LogRecR.start tx) = tx from rfl)]
  rw [hghost] at hroll
  obtain ⟨hmem, _⟩ := hws w hw
  rw [readValB_eq_cellVal pages0 cs κ st0 _ hroll w.1 hmem,
    firstPreimage_eq_init]
  rfl

/-- Block used by the C5 witness. -/
def c5wBlk : BlockId :=
  { filename := "t", blknum := 0 }

/-- Initial pages of the C5 witness: one all-zero 32-byte block. -/
def c5wPages0 : BlockId → Bytes :=
  fun _ => List.replicate 32 0

/-- C5 witness int cell: bytes [0, 4). -/
def c5wC1 : CellSpec := ⟨c5wBlk, 0, 4⟩

/-- C5 witness string cell: bytes [8, 20). -/
def c5wC2 : CellSpec := ⟨c5wBlk, 8, 12⟩

/-- The two byte-disjoint tracked cells of the C5 witness. -/
def c5wCs : List CellSpec := [c5wC1, c5wC2]

/-- Cell kinds of the C5 witness: the cell at offset 8 is a string cell. -/
def c5wKappa : CellSpec → Bool :=
  fun c => decide (c.off = 8)

/-- Ghost view of the all-zero witness pages: int 0 at the int cell, the
empty string at the string cell. -/
def c5wSt0 : Store :=
  fun q => if q.2 = 8 then CellVal.s [] else CellVal.i 0

/-- C5 witness writes: two ints to the int cell (same cell twice) and a
string to the string cell. -/
def c5wWs : List (CellSpec × CellVal) :=
  [(c5wC1, CellVal.i 65535), (c5wC2, CellVal.s [104, 105]),
   (c5wC1, CellVal.i 4919)]

/-- Witness for the amended C5: transaction 3 writes 65535 then 4919 to the
int cell and "hi" to the string cell, rolls back, and the int cell reads
back 0 — the pre-image of the first logged write to it. -/
theorem C5_rollback_restores_bytes_witness :
    readValB
      (doRollbackB 3
        (runWritesB 3 c5wPages0 (LogRecR.start 3 :: []) c5wWs).1
        (runWritesB 3 c5wPages0 (LogRecR.start 3 :: []) c5wWs).2)
      c5wC1.blk c5wC1.off (c5wKappa c5wC1)
    = firstPreimage c5wSt0 (wsToCells c5wWs) (c5wC1.blk, (c5wC1.off : Int)) :=
  C5_rollback_restores_bytes 3 c5wPages0 c5wCs c5wKappa c5wSt0 [] c5wWs
    (by decide) (by decide) ⟨fun b => rfl, by decide⟩
    (c5wC1, CellVal.i 65535) (by decide)

/-- State of a `RecordPage` (`rdbpy/record.py`) at flag-cell granularity:
`flags o` is what `tx.get_int(blk, o)` returns at byte offset `o`; the page
only ever touches the flag of slot `k` at offset `k * slot_size`
(`_offset`), and flag cells of distinct slots are distinct offsets. -/
structure RecordPageState where
  blockSize : Nat
  slotSize : Nat
  flags : Int → Int

/-- `RecordPage._is_valid_slot`: `_offset(slot + 1) <= tx.block_size()`,
i.e. `(slot+1) * slot_size ≤ block_size` — only slots that fit entirely. -/
def RecordPage.isValidSlot (s : RecordPageState) (slot : Int) : Bool :=
  (slot + 1) * (s.slotSize : Int) ≤ (s.blockSize : Int)

/-- `RecordPage._set_flag`: `tx.set_int(blk, _offset(slot), flag, True)`. -/
def RecordPage.setFlag (s : RecordPageState) (slot : Int) (flag : Int) :
    RecordPageState :=
  { s with flags := fun o => if o = slot * (s.slotSize : Int) then flag else s.flags o }

/-- Loop body of `RecordPage._search_after`: scan slots `j, j+1, …` while
valid, returning the first slot whose flag equals `flag`, else −1.  The fuel
`block_size / slot_size + 1` used by `searchAfter` below strictly exceeds the
number of valid slots, so the loop always stops via the validity check
exactly as in the source. -/
def searchAfterAux (s : RecordPageState) (flag : Int) : Nat → Nat → Int
  | 0, _ => -1
  | f + 1, j =>
    if RecordPage.isValidSlot s (j : Int) then
      if s.flags ((j : Int) * (s.slotSize : Int)) = flag then (j : Int)
      else searchAfterAux s flag f (j + 1)
    else -1

/-- `RecordPage._search_after(slot, flag)`: starts at `slot + 1` (callers
always pass `slot ≥ -1`). -/
def RecordPage.searchAfter (s : RecordPageState) (flag : Int) (slot : Int) : Int :=
  searchAfterAux s flag (s.blockSize / s.slotSize + 1) (slot + 1).toNat

/-- `RecordPage.insert_after(slot)` (`rdbpy/record.py` lines 154-158): find
the first valid EMPTY (=0) slot after `slot`; if found (≥ 0), flip it to
USED (=1); else return −1 leaving the page unchanged. -/
def RecordPage.insert_after (s : RecordPageState) (slot : Int) :
    Int × RecordPageState :=
  if 0 ≤ RecordPage.searchAfter s 0 slot then
    (RecordPage.searchAfter s 0 slot,
     RecordPage.setFlag s (RecordPage.searchAfter s 0 slot) 1)
  else (RecordPage.searchAfter s 0 slot, s)

theorem searchAfterAux_mem (s : RecordPageState) (flag : Int) :
    ∀ f j, searchAfterAux s flag f j = -1 ∨
      ∃ k : Nat, j ≤ k ∧ searchAfterAux s flag f j = (k : Int) ∧
        RecordPage.isValidSlot s (k : Int) = true ∧
        s.flags ((k : Int) * (s.slotSize : Int)) = flag := by
  intro f
  induction f with
  | zero => intro j; left; rfl
  | succ g ih =>
    intro j
    rw [searchAfterAux]
    by_cases hv : RecordPage.isValidSlot s (j : Int) = true
    · rw [if_pos hv]
      by_cases hf : s.flags ((j : Int) * (s.slotSize : Int)) = flag
      · right
        exact ⟨j, Nat.le_refl j, by rw [if_pos hf], hv, hf⟩
      · rw [if_neg hf]
        rcases ih (j + 1) with h | ⟨k, hk1, hk2, hk3, hk4⟩
        · left; exact h
        · right; exact ⟨k, by omega, hk2, hk3, hk4⟩
    · rw [if_neg hv]
      left
      rfl

theorem insert_after_spec (s : RecordPageState) (slot : Int) :
    ((RecordPage.insert_after s slot).1 = -1 →
      (RecordPage.insert_after s slot).2 = s) ∧
    ((RecordPage.insert_after s slot).1 ≠ -1 →
      ∃ k : Nat, (RecordPage.insert_after s slot).1 = (k : Int) ∧
        RecordPage.isValidSlot s (k : Int) = true ∧
        s.flags ((k : Int) * (s.slotSize : Int)) = 0 ∧
        (RecordPage.insert_after s slot).2 = RecordPage.setFlag s (k : Int) 1) := by
  have hs := searchAfterAux_mem s 0 (s.blockSize / s.slotSize + 1) ((slot + 1).toNat)
  unfold RecordPage.insert_after RecordPage.searchAfter
  rcases hs with h | ⟨k, _hk1, hk2, hk3, hk4⟩
  · rw [h, if_neg (by omega : ¬ (0 : Int) ≤ -1)]
    exact ⟨fun _ => rfl, fun hne => absurd rfl hne⟩
  · rw [hk2, if_pos (Int.natCast_nonneg k)]
    refine ⟨fun habs => absurd habs (by omega), fun _ => ⟨k, rfl, hk3, hk4, rfl⟩⟩

/-- Number of valid slots currently flagged USED. -/
def usedCount (s : RecordPageState) : Nat :=
  ((List.range (s.blockSize / s.slotSize)).filter
    (fun (j : Nat) => s.flags ((j : Int) * (s.slotSize : Int)) = 1)).length

theorem usedCount_le (s : RecordPageState) :
    usedCount s ≤ s.blockSize / s.slotSize := by
  unfold usedCount
  calc ((List.range (s.blockSize / s.slotSize)).filter _).length
      ≤ (List.range (s.blockSize / s.slotSize)).length := List.length_filter_le _ _
    _ = s.blockSize / s.slotSize := List.length_range _

/-- Invariant of the canonical fill of a formatted page with geometry
(bs, ss): the first `i` valid slots are USED, the rest of the valid slots
EMPTY (as `format()` leaves them). -/
def rpInv (bs ss i : Nat) (s : RecordPageState) : Prop :=
  s.blockSize = bs ∧ s.slotSize = ss ∧
  ∀ j : Nat, j < bs / ss →
    s.flags ((j : Int) * (ss : Int)) = if j < i then 1 else 0

theorem length_filter_range_lt (i n : Nat) (h : i ≤ n) :
    ((List.range n).filter (fun j => j < i)).length = i := by
  induction n with
  | zero =>
    have : i = 0 := by omega
    subst this
    rfl
  | succ m ih =>
    rw [List.range_succ, List.filter_append, List.length_append]
    by_cases hc : i ≤ m
    · rw [ih hc]
      have : ¬ (m < i) := by omega
      simp [this]
    · have hi : i = m + 1 := by omega
      subst hi
      have h1 : (List.range m).filter (fun j => j < m + 1) = List.range m := by
        apply List.filter_eq_self.mpr
        intro a ha
        simp only [List.mem_range] at ha
        simp
        omega
      rw [h1, List.length_range]
      simp

theorem usedCount_inv (bs ss i : Nat) (s : RecordPageState)
    (h : rpInv bs ss i s) (hi : i ≤ bs / ss) : usedCount s = i := by
  unfold usedCount
  rw [h.1, h.2.1]
  have hcongr : (List.range (bs / ss)).filter
      (fun (j : Nat) => s.flags ((j : Int) * (ss : Int)) = 1) =
      (List.range (bs / ss)).filter (fun j => j < i) := by
    apply List.filter_congr
    intro a ha
    simp only [List.mem_range] at ha
    rw [h.2.2 a ha]
    by_cases hai : a < i
    · simp [hai]
    · simp [hai]
  rw [hcongr, length_filter_range_lt i (bs / ss) hi]

/-- Repeated `insert_after`, each call starting from the slot the previous
call returned (what `TableScan.insert` does within one block); the second
component is the current slot, starting at −1. -/
def fillN (p : RecordPageState × Int) : Nat → RecordPageState × Int
  | 0 => p
  | n + 1 =>
    ((RecordPage.insert_after (fillN p n).1 (fillN p n).2).2,
     (RecordPage.insert_after (fillN p n).1 (fillN p n).2).1)

theorem insert_after_inv_step (bs ss i : Nat) (hss : 0 < ss)
    (s : RecordPageState) (h : rpInv bs ss i s) (hi : i < bs / ss) :
    RecordPage.insert_after s ((i : Int) - 1) =
      ((i : Int), RecordPage.setFlag s (i : Int) 1) ∧
    rpInv bs ss (i + 1) (RecordPage.setFlag s (i : Int) 1) := by
  obtain ⟨hbs, hssf, hflags⟩ := h
  have hvalid : RecordPage.isValidSlot s (i : Int) = true := by
    unfold RecordPage.isValidSlot
    have : (i + 1) * ss ≤ bs := by
      have := (Nat.le_div_iff_mul_le hss).mp (by omega : i + 1 ≤ bs / ss)
      omega
    rw [hbs, hssf]
    simp only [decide_eq_true_eq]
    exact_mod_cast this
  have hflag0 : s.flags ((i : Int) * (s.slotSize : Int)) = 0 := by
    rw [hssf]
    have := hflags i hi
    simp only [Nat.lt_irrefl, if_neg] at this
    simpa using this
  have hsearch : RecordPage.searchAfter s 0 ((i : Int) - 1) = (i : Int) := by
    unfold RecordPage.searchAfter
    have hstart : ((i : Int) - 1 + 1).toNat = i := by omega
    rw [hstart]
    have hfuel : s.blockSize / s.slotSize + 1 = (s.blockSize / s.slotSize) + 1 := rfl
    rw [searchAfterAux]
    rw [if_pos hvalid, if_pos hflag0]
  constructor
  · unfold RecordPage.insert_after
    rw [hsearch, if_pos (Int.natCast_nonneg i)]
  · refine ⟨hbs, hssf, fun j hj => ?_⟩
    unfold RecordPage.setFlag
    simp only
    by_cases hji : j = i
    · subst hji
      rw [hssf, if_pos rfl]
      have : j < j + 1 := by omega
      simp [this]
    · have hne : (j : Int) * (ss : Int) ≠ (i : Int) * (s.slotSize : Int) := by
        rw [hssf]
        intro habs
        have hcast : (j : Int) = (i : Int) :=
          mul_right_cancel₀ (Nat.cast_ne_zero.mpr hss.ne') habs
        exact hji (by exact_mod_cast hcast)
      rw [if_neg hne, hflags j hj]
      by_cases hcase : j < i
      · have h1 : j < i := hcase
        have h2 : j < i + 1 := by omega
        simp [h1, h2]
      · have h2 : ¬ (j < i + 1) := by omega
        simp [hcase, h2]

theorem insert_after_full (bs ss : Nat) (hss : 0 < ss) (s : RecordPageState)
    (h : rpInv bs ss (bs / ss) s) :
    (RecordPage.insert_after s (((bs / ss : Nat) : Int) - 1)).1 = -1 := by
  obtain ⟨hbs, hssf, _hflags⟩ := h
  have hsearch : RecordPage.searchAfter s 0 (((bs / ss : Nat) : Int) - 1) = -1 := by
    unfold RecordPage.searchAfter
    have hstart : ∀ n : Nat, ((n : Int) - 1 + 1).toNat = n := fun n => by omega
    rw [hstart (bs / ss)]
    rw [searchAfterAux]
    have hinvalid : ¬ RecordPage.isValidSlot s ((bs / ss : Nat) : Int) = true := by
      unfold RecordPage.isValidSlot
      rw [hbs, hssf]
      simp only [decide_eq_true_eq, not_le]
      have h1 : bs < bs / ss * ss + ss := by
        calc bs = ss * (bs / ss) + bs % ss := (Nat.div_add_mod bs ss).symm
          _ < ss * (bs / ss) + ss := Nat.add_lt_add_left (Nat.mod_lt bs hss) _
          _ = bs / ss * ss + ss := by rw [Nat.mul_comm]
      have h1i : (bs : Int) < ((bs / ss : Nat) : Int) * (ss : Int) + (ss : Int) := by
        exact_mod_cast h1
      calc (bs : Int) < ((bs / ss : Nat) : Int) * (ss : Int) + (ss : Int) := h1i
        _ = (((bs / ss : Nat) : Int) + 1) * (ss : Int) := by ring
    rw [if_neg hinvalid]
  unfold RecordPage.insert_after
  rw [hsearch, if_neg (by omega : ¬ (0 : Int) ≤ -1)]

theorem fillN_inv (bs ss : Nat) (hss : 0 < ss) (s0 : RecordPageState)
    (h0 : rpInv bs ss 0 s0) :
    ∀ i, i ≤ bs / ss →
      rpInv bs ss i (fillN (s0, -1) i).1 ∧
      (fillN (s0, -1) i).2 = (i : Int) - 1 := by
  intro i
  induction i with
  | zero =>
    intro _
    exact ⟨h0, by simp [fillN]⟩
  | succ n ih =>
    intro hn
    obtain ⟨hinv, hslot⟩ := ih (by omega)
    have hstep := insert_after_inv_step bs ss n hss (fillN (s0, -1) n).1 hinv (by omega)
    constructor
    · show rpInv bs ss (n + 1)
        (RecordPage.insert_after (fillN (s0, -1) n).1 (fillN (s0, -1) n).2).2
      rw [hslot, hstep.1]
      exact hstep.2
    · show (RecordPage.insert_after (fillN (s0, -1) n).1 (fillN (s0, -1) n).2).1 =
        ((n + 1 : Nat) : Int) - 1
      rw [hslot, hstep.1]
      push_cast
      ring

/-- C9.  Slotted-page capacity (`rdbpy/record.py`): (1) slot `k` is valid
iff `(k+1)·slot_size ≤ block_size`, equivalently iff `k < ⌊block_size /
slot_size⌋`; (2) at most `⌊block_size / slot_size⌋` valid slots can be USED
in any state; (3) starting from a formatted page, repeatedly calling
`insert_after` (each call from the slot the previous one returned) makes all
`⌊block_size / slot_size⌋` slots USED, and the next call returns −1; and (4)
`insert_after` only ever flips one valid EMPTY slot to USED, otherwise
returning −1 and leaving the page unchanged — so the number of slots that
can ever be USED simultaneously is exactly `⌊block_size / slot_size⌋`. -/
theorem C9_slotted_capacity (bs ss : Nat) (hss : 0 < ss) (s0 : RecordPageState)
    (h0 : rpInv bs ss 0 s0) :
    (∀ s : RecordPageState, ∀ slot : Int, RecordPage.isValidSlot s slot = true ↔
      (slot + 1) * (s.slotSize : Int) ≤ (s.blockSize : Int))
    ∧ (∀ j : Nat, ((j : Int) + 1) * (ss : Int) ≤ (bs : Int) ↔ j < bs / ss)
    ∧ (∀ s : RecordPageState, usedCount s ≤ s.blockSize / s.slotSize)
    ∧ usedCount (fillN (s0, -1) (bs / ss)).1 = bs / ss
    ∧ (RecordPage.insert_after (fillN (s0, -1) (bs / ss)).1
        (fillN (s0, -1) (bs / ss)).2).1 = -1
    ∧ (∀ s : RecordPageState, ∀ slot : Int,
        ((RecordPage.insert_after s slot).1 = -1 →
          (RecordPage.insert_after s slot).2 = s)
        ∧ ((RecordPage.insert_after s slot).1 ≠ -1 →
          ∃ k : Nat, (RecordPage.insert_after s slot).1 = (k : Int) ∧
            RecordPage.isValidSlot s (k : Int) = true ∧
            s.flags ((k : Int) * (s.slotSize : Int)) = 0 ∧
            (RecordPage.insert_after s slot).2 = RecordPage.setFlag s (k : Int) 1)) := by
  have hfill := fillN_inv bs ss hss s0 h0 (bs / ss) (Nat.le_refl _)
  refine ⟨?_, ?_, usedCount_le, ?_, ?_, fun s slot => insert_after_spec s slot⟩
  · intro s slot
    unfold RecordPage.isValidSlot
    simp
  · intro j
    constructor
    · intro hj
      have h1 : (j + 1) * ss ≤ bs := by exact_mod_cast hj
      exact Nat.lt_of_lt_of_le (Nat.lt_succ_self j)
        ((Nat.le_div_iff_mul_le hss).mpr h1)
    · intro hj
      have h1 : (j + 1) * ss ≤ bs := (Nat.le_div_iff_mul_le hss).mp (by omega)
      exact_mod_cast h1
  · exact usedCount_inv bs ss (bs / ss) _ hfill.1 (Nat.le_refl _)
  · rw [hfill.2]
    exact insert_after_full bs ss hss _ hfill.1

/-- Witness for C9 at block size 20, slot size 8 (capacity ⌊20/8⌋ = 2): the
formatted all-EMPTY page fills to exactly 2 USED slots and the third
`insert_after` returns −1. -/
theorem C9_slotted_capacity_witness :
    usedCount (fillN (⟨20, 8, fun _ => 0⟩, -1) (20 / 8)).1 = 20 / 8 ∧
    (RecordPage.insert_after (fillN (⟨20, 8, fun _ => 0⟩, -1) (20 / 8)).1
      (fillN (⟨20, 8, fun _ => 0⟩, -1) (20 / 8)).2).1 = -1 :=
  ⟨(C9_slotted_capacity 20 8 (by decide) ⟨20, 8, fun _ => 0⟩
      ⟨rfl, rfl, fun j _ => by simp⟩).2.2.2.1,
   (C9_slotted_capacity 20 8 (by decide) ⟨20, 8, fun _ => 0⟩
      ⟨rfl, rfl, fun j _ => by simp⟩).2.2.2.2.1⟩

/-- Cursor over a fixed list of rows, the common behaviour of the Scan
classes (`simpledbpy/scan.py`): `idx = 0` is "before the first row";
`next()` advances and reports whether it landed on a row; at the end it
keeps returning `false`. -/
structure ListScan (α : Type) where
  rows : List α
  idx : Nat

/-- `before_first()`. -/
def ListScan.beforeFirst {α : Type} (s : ListScan α) : ListScan α :=
  { s with idx := 0 }

/-- `next()`: true iff another row exists. -/
def ListScan.next {α : Type} (s : ListScan α) : Bool × ListScan α :=
  if s.idx < s.rows.length then (true, { s with idx := s.idx + 1 })
  else (false, s)

/-- State of a `ProductScan` over two child scans. -/
structure ProductScanState (α β : Type) where
  s1 : ListScan α
  s2 : ListScan β

/-- `ProductScan.__init__` (`simpledbpy/scan.py` lines 357-361): advances
`s1` once and IGNORES the returned boolean. -/
def ProductScan.init {α β : Type} (s1 : ListScan α) (s2 : ListScan β) :
    ProductScanState α β :=
  { s1 := (s1.next).2, s2 := s2 }

/-- `ProductScan.next` (`simpledbpy/scan.py` lines 367-372): advance `s2`;
on success return true; else rewind `s2` and return `s2.next() and
s1.next()` (Python `and` short-circuits, so `s1.next()` only runs when the
rewound `s2.next()` succeeded). -/
def ProductScan.next {α β : Type} (p : ProductScanState α β) :
    Bool × ProductScanState α β :=
  if (p.s2.next).1 then (true, { p with s2 := (p.s2.next).2 })
  else
    if (((p.s2.next).2.beforeFirst).next).1 then
      ((p.s1.next).1,
       { s1 := (p.s1.next).2, s2 := (((p.s2.next).2.beforeFirst).next).2 })
    else (false, { p with s2 := (((p.s2.next).2.beforeFirst).next).2 })

/-- C10.  For a `ProductScan` built from an empty left scan (its initial
`s1.next()` is false, which the constructor ignores, leaving `s1`
unchanged) and a non-empty right scan positioned before its first row, the
first call to `next()` still returns true, because `next()` returns true as
soon as `s2.next()` does: the product yields rows although the left input
has zero rows. -/
theorem C10_product_scan_empty_left (α β : Type) (s1 : ListScan α)
    (s2 : ListScan β) (h1 : s1.rows = []) (h2 : s2.rows ≠ []) (h2i : s2.idx = 0) :
    (ProductScan.init s1 s2).s1 = s1 ∧
    ((s1.next).1 = false) ∧
    (ProductScan.next (ProductScan.init s1 s2)).1 = true := by
  have hn1 : s1.next = (false, s1) := by
    unfold ListScan.next
    rw [if_neg (by rw [h1]; simp)]
  have hn2 : (s2.next).1 = true := by
    unfold ListScan.next
    have : s2.idx < s2.rows.length := by
      rw [h2i]
      exact List.length_pos.mpr h2
    rw [if_pos this]
  refine ⟨by rw [ProductScan.init, hn1], by rw [hn1], ?_⟩
  unfold ProductScan.next
  rw [ProductScan.init]
  simp only
  rw [hn1]
  simp only
  rw [if_pos hn2]

/-- Witness for C10: empty left input over `Nat`, right input `[5]`. -/
theorem C10_product_scan_empty_left_witness :
    (ProductScan.init (⟨[], 0⟩ : ListScan Nat) (⟨[5], 0⟩ : ListScan Nat)).s1 =
      (⟨[], 0⟩ : ListScan Nat) ∧
    (((⟨[], 0⟩ : ListScan Nat)).next).1 = false ∧
    (ProductScan.next (ProductScan.init (⟨[], 0⟩ : ListScan Nat)
      (⟨[5], 0⟩ : ListScan Nat))).1 = true :=
  C10_product_scan_empty_left Nat Nat ⟨[], 0⟩ ⟨[5], 0⟩ rfl (by simp) rfl

/-- Python exception kinds raised by the embedded code paths. -/
inductive PyErr where
  | assertionError
  | attributeError
  | indexError
deriving DecidableEq, Repr

/-- `ViewMgr.get_view_def` (`rdbpy/metadata.py` lines 106-116): scan viewcat
for the first row with matching `viewname` and take its `viewdef`; finally
`assert result is not None` — an `AssertionError` for any name without a
viewcat row.  A viewcat table is its list of (viewname, viewdef) rows in
insertion order. -/
def ViewMgr.get_view_def (viewcat : List (String × String)) (vname : String) :
    Except PyErr String :=
  match viewcat.find? (fun r => r.1 = vname) with
  | some r => .ok r.2
  | none => .error .assertionError

/-- Plan trees the `BasicQueryPlanner` builds. -/
inductive PlanB where
  | tablePlan (tbl : String)
  | productP (p q : PlanB)
  | selectP (p : PlanB)
  | projectP (p : PlanB) (fields : List String)
deriving DecidableEq, Repr

/-- Loop body of `BasicQueryPlanner.create_plan` (`simpledbpy/plan.py` lines
191-198) for one table name: `viewdef = mdm.get_view_def(tblname, tx)` —
which raises before the planner can test it — then `if viewdef is not
None:` re-parses and recursively plans the view (the `expand` oracle
abstracts that recursion).  Because `get_view_def` asserts its result is not
None, the `else` branch building `TablePlan(tx, tblname, mdm)` (line 198) is
unreachable. -/
def BasicQueryPlanner.planForTable (expand : String → Except PyErr PlanB)
    (viewcat : List (String × String)) (t : String) : Except PyErr PlanB := do
  let vd ← ViewMgr.get_view_def viewcat t
  expand vd

/-- The planner's `plans` list accumulation over `data.tables`, propagating
the first exception. -/
def BasicQueryPlanner.plansFor (expand : String → Except PyErr PlanB)
    (viewcat : List (String × String)) : List String → Except PyErr (List PlanB)
  | [] => .ok []
  | t :: ts => do
    let p ← BasicQueryPlanner.planForTable expand viewcat t
    let rest ← BasicQueryPlanner.plansFor expand viewcat ts
    pure (p :: rest)

/-- `BasicQueryPlanner.create_plan` (`simpledbpy/plan.py` lines 189-201):
per-table plans, left-deep product (`reduce` over `plans[1:]` from
`plans[0]`), then `SelectPlan(pred)`, then `ProjectPlan(fields)`. -/
def BasicQueryPlanner.create_plan (expand : String → Except PyErr PlanB)
    (viewcat : List (String × String)) (tables : List String)
    (fields : List String) : Except PyErr PlanB := do
  let plans ← BasicQueryPlanner.plansFor expand viewcat tables
  match plans with
  | [] => .error .indexError
  | p0 :: rest => pure (.projectP (.selectP (rest.foldl .productP p0)) fields)

/-- C1.  End-to-end SQL (scenario S6) breaks at planning: on a new database
the `viewcat` table has no row for the base table `student`, so
`ViewMgr.get_view_def` hits `assert result is not None` and raises
`AssertionError`; `BasicQueryPlanner.create_plan` therefore raises for
`SELECT sname, gradyear FROM student` instead of falling back to a
`TablePlan`, whatever the view-expansion recursion would do.  The claim's
expected result — the two inserted rows — is never reached. -/
theorem C1_s6_planning_raises (expand : String → Except PyErr PlanB)
    (viewcat : List (String × String)) (h : ∀ r ∈ viewcat, r.1 ≠ "student") :
    ViewMgr.get_view_def viewcat "student" = .error .assertionError ∧
    BasicQueryPlanner.create_plan expand viewcat ["student"]
      ["sname", "gradyear"] = .error .assertionError := by
  have hv : ViewMgr.get_view_def viewcat "student" = .error .assertionError := by
    unfold ViewMgr.get_view_def
    rw [List.find?_eq_none.mpr (fun x hx => by simp [h x hx])]
  refine ⟨hv, ?_⟩
  unfold BasicQueryPlanner.create_plan BasicQueryPlanner.plansFor
    BasicQueryPlanner.planForTable
  rw [hv]
  rfl

/-- Witness for C1: the fresh-database scenario has an empty viewcat (no
CREATE VIEW was executed), and any view expansion whatsoever. -/
theorem C1_s6_planning_raises_witness :
    ViewMgr.get_view_def [] "student" = .error .assertionError ∧
    BasicQueryPlanner.create_plan (fun _ => .ok (.tablePlan "v")) []
      ["student"] ["sname", "gradyear"] = .error .assertionError :=
  C1_s6_planning_raises (fun _ => .ok (.tablePlan "v")) [] (by simp)

/-- `Constant` (`simpledbpy/grammar.py`), as a tagged value. -/
inductive ConstantV where
  | int (i : Int)
  | str (s : String)
deriving DecidableEq, Repr

/-- `Expression` (`simpledbpy/grammar.py`): a constant or a field name. -/
inductive ExpressionV where
  | const (c : ConstantV)
  | field (f : String)
deriving DecidableEq, Repr

/-- `Term` (`simpledbpy/grammar.py`): an equality `lhs = rhs`. -/
structure TermV where
  lhs : ExpressionV
  rhs : ExpressionV
deriving DecidableEq, Repr

/-- `Predicate` (`simpledbpy/scan.py` lines 196-243): a conjunction of
terms. -/
structure PredicateV where
  terms : List TermV
deriving DecidableEq, Repr

/-- Cost interface of a child `Plan` as `SelectPlan` consumes it:
`records_output()` and `distinct_values(fld)`. -/
structure PlanIface where
  records_output : Int
  distinct_values : String → Int

/-- The `Predicate` class of `simpledbpy/scan.py` defines `is_satisfied`,
`conjoin_with`, `select_sub_pred` and `join_sub_pred`, but its
`reduction_factor` method is COMMENTED OUT (lines 211-212): looking the
attribute up on a Predicate instance raises `AttributeError`.  `none` records
that absence. -/
def PredicateV.reductionFactorMethod : Option (PredicateV → PlanIface → Int) :=
  none

/-- `Predicate.equates_with_constant` is likewise commented out
(`simpledbpy/scan.py` lines 233-234). -/
def PredicateV.equatesWithConstantMethod :
    Option (PredicateV → String → Option ConstantV) :=
  none

/-- `Predicate.equates_with_field` is likewise commented out
(`simpledbpy/scan.py` lines 236-237). -/
def PredicateV.equatesWithFieldMethod :
    Option (PredicateV → String → Option String) :=
  none

/-- `SelectPlan.records_output` (`simpledbpy/plan.py` lines 95-96):
`self._p.records_output() // self._pred.reduction_factor(self._p)`; the
attribute lookup `self._pred.reduction_factor` raises `AttributeError`
because the method is commented out of `Predicate`. -/
def SelectPlan.records_output (p : PlanIface) (pred : PredicateV) :
    Except PyErr Int :=
  match PredicateV.reductionFactorMethod with
  | none => .error .attributeError
  | some f => .ok (Int.fdiv p.records_output (f pred p))

/-- `SelectPlan.distinct_values` (`simpledbpy/plan.py` lines 98-108): first
calls `self._pred.equates_with_constant(fldname)` — also commented out of
`Predicate`, so it raises `AttributeError` before any of the claim's three
cases can be computed. -/
def SelectPlan.distinct_values (p : PlanIface) (pred : PredicateV)
    (fld : String) : Except PyErr Int :=
  match PredicateV.equatesWithConstantMethod with
  | none => .error .attributeError
  | some f =>
    match f pred fld with
    | some _ => .ok 1
    | none =>
      match PredicateV.equatesWithFieldMethod with
      | none => .error .attributeError
      | some g =>
        match g pred fld with
        | some fld2 => .ok (min (p.distinct_values fld) (p.distinct_values fld2))
        | none => .ok (p.distinct_values fld)

/-- C3.  For every SelectPlan child and predicate, `records_output()` and
`distinct_values(fld)` do NOT return normally: both raise `AttributeError`,
because `Predicate.reduction_factor`, `Predicate.equates_with_constant` and
`Predicate.equates_with_field` are commented out of `simpledbpy/scan.py`
(lines 211-212, 233-237) while `SelectPlan` still calls them
(`simpledbpy/plan.py` lines 96, 99, 102).  The claim's formulas (child
records divided by the reduction factor; the 1/min/child three-way split)
are never computed. -/
theorem C3_selectplan_attribute_error (p : PlanIface) (pred : PredicateV)
    (fld : String) :
    SelectPlan.records_output p pred = .error .attributeError ∧
    SelectPlan.distinct_values p pred fld = .error .attributeError :=
  ⟨rfl, rfl⟩

/-- `StatInfo` (`rdbpy/metadata.py` lines 119-125). -/
structure StatInfo where
  num_blocks : Int
  num_recs : Int
deriving DecidableEq, Repr

/-- `StatInfo.distinct_values`: `1 + (num_recs // 3)` (deliberately crude). -/
def StatInfo.distinct_values (si : StatInfo) (_fldname : String) : Int :=
  1 + Int.fdiv si.num_recs 3

/-- A `threading.Lock`: NOT reentrant.  Acquiring while held blocks the
calling thread forever (`none`). -/
structure PyLock where
  held : Bool
deriving DecidableEq, Repr

/-- `lock.acquire()`: blocks forever (= `none`) if already held. -/
def PyLock.acquire (l : PyLock) : Option PyLock :=
  if l.held then none else some { held := true }

/-- `lock.release()`. -/
def PyLock.release (_l : PyLock) : PyLock :=
  { held := false }

/-- State of `StatMgr` (`rdbpy/metadata.py`): the stats map, the call
counter, and its mutex. -/
structure StatMgrState where
  tablestats : List (String × StatInfo)
  numcalls : Int
  lock : PyLock

/-- `StatMgr._refresh_statistics` (`rdbpy/metadata.py` lines 150-162): `with
self._lock:` — acquires the SAME lock again — then resets the counter and
recomputes the whole map by scanning tblcat.  The catalog scan is abstracted
by the `allTables`/`calcStats` oracles (`_calc_table_stats` results).
Returns `none` when the lock acquisition blocks forever. -/
def StatMgr.refresh_statistics (calcStats : String → StatInfo)
    (allTables : List String) (st : StatMgrState) : Option StatMgrState :=
  match st.lock.acquire with
  | none => none
  | some l2 =>
    some { tablestats := allTables.map (fun t => (t, calcStats t)),
           numcalls := 0,
           lock := l2.release }

/-- `StatMgr.get_stat_info` (`rdbpy/metadata.py` lines 139-148): under
`with self._lock:`, increment `numcalls`; if it exceeds 100 call
`_refresh_statistics` (which re-acquires the held non-reentrant lock); then
look the table up, computing and caching its stats if absent. -/
def StatMgr.get_stat_info (calcStats : String → StatInfo)
    (allTables : List String) (st : StatMgrState) (tblname : String) :
    Option (StatInfo × StatMgrState) :=
  match st.lock.acquire with
  | none => none
  | some l2 =>
    let st1 : StatMgrState :=
      { tablestats := st.tablestats, numcalls := st.numcalls + 1, lock := l2 }
    let st2? : Option StatMgrState :=
      if st1.numcalls > 100 then
        StatMgr.refresh_statistics calcStats allTables st1
      else some st1
    match st2? with
    | none => none
    | some st2 =>
      match st2.tablestats.find? (fun r => r.1 = tblname) with
      | some r => some (r.2, { st2 with lock := st2.lock.release })
      | none =>
        some (calcStats tblname,
          { st2 with
            tablestats := st2.tablestats ++ [(tblname, calcStats tblname)],
            lock := st2.lock.release })

/-- C7.  When `get_stat_info` has been called more than 100 times since the
last refresh (counter ≥ 100 before this call, so the increment makes it
exceed 100), the next call does NOT refresh-and-return: it deadlocks,
because `_refresh_statistics` re-acquires the non-reentrant `threading.Lock`
that `get_stat_info` is already holding — so not every call terminates.
Calls with the counter still at 100 or below return normally. -/
theorem C7_statmgr_101st_call_deadlocks (calcStats : String → StatInfo)
    (allTables : List String) (st : StatMgrState) (tbl : String)
    (hlock : st.lock.held = false) :
    (100 ≤ st.numcalls →
      StatMgr.get_stat_info calcStats allTables st tbl = none) ∧
    (st.numcalls < 100 →
      (StatMgr.get_stat_info calcStats allTables st tbl).isSome = true) := by
  have hacq : st.lock.acquire = some { held := true } := by
    unfold PyLock.acquire
    rw [if_neg (by rw [hlock]; simp)]
  constructor
  · intro h100
    unfold StatMgr.get_stat_info
    rw [hacq]
    simp only
    rw [if_pos (by omega : (st.numcalls + 1 : Int) > 100)]
    unfold StatMgr.refresh_statistics PyLock.acquire
    rw [if_pos (by rfl)]
  · intro hlt
    unfold StatMgr.get_stat_info
    rw [hacq]
    simp only
    rw [if_neg (by omega : ¬ (st.numcalls + 1 : Int) > 100)]
    simp only
    rcases hfind : List.find? (fun r => r.1 = tbl)
        st.tablestats with _ | r
    · rw [hfind]
      simp
    · rw [hfind]
      simp

/-- Concrete state for the C7 witness: one cached table, counter at 100
(i.e. the 101st call since the last refresh), lock free. -/
def c7State : StatMgrState :=
  { tablestats := [("t", { num_blocks := 1, num_recs := 2 })],
    numcalls := 100, lock := { held := false } }

/-- Witness for C7: the 101st call deadlocks (returns `none` = never
returns), while the same state with the counter at 99 returns normally. -/
theorem C7_statmgr_101st_call_deadlocks_witness :
    StatMgr.get_stat_info (fun _ => { num_blocks := 0, num_recs := 0 }) ["t"]
      c7State "t" = none ∧
    (StatMgr.get_stat_info (fun _ => { num_blocks := 0, num_recs := 0 }) ["t"]
      { c7State with numcalls := 99 } "t").isSome = true :=
  ⟨(C7_statmgr_101st_call_deadlocks (fun _ => { num_blocks := 0, num_recs := 0 })
      ["t"] c7State "t" rfl).1 (by decide),
   (C7_statmgr_101st_call_deadlocks (fun _ => { num_blocks := 0, num_recs := 0 })
      ["t"] { c7State with numcalls := 99 } "t" rfl).2 (by decide)⟩
